import Mathlib

/-!
Verification development for the trace graph builder
(`VisibleFunctionUpdater`): a shallow embedding of the step handlers that
consume js-interpreter execution states and mutate the node/link/scope-chain
collections, together with theorems about the behaviour of those handlers.

JavaScript objects that are shared by reference (call nodes reachable from the
node list, the links, the scope chain, `rootNode`, `exitingNode` and the
`callerNode` back-references) are represented by indices (`NodeId`) into a
heap (`List NodeInfo`); mutating a node through any reference is modelled by
updating the heap at that index.  JavaScript `TypeError`s (property reads on
`null`/`undefined`) are modelled with `Except JsErr`.
-/

/-- Errors of the embedded JavaScript: a `TypeError` from dereferencing
`null`/`undefined`, or fuel exhaustion of the bounded model of the
scope-chain `while` loop (never hit on acyclic caller chains). -/
inductive JsErr
  | typeError
  | fuelExhausted
deriving DecidableEq, Repr

/-- A JavaScript value slot that can be `null`, `undefined`, or a string
(used for `state.node.left.name` and the `assignmentWarningVar` slot, where
the source distinguishes `null` from `undefined` under `!==`). -/
inductive JsStr
  | nullv
  | undef
  | str (s : String)
deriving DecidableEq, Repr

/-- Node identifier: index into the builder's heap of `NodeInfo` records. -/
abbrev NodeId := Nat

/-- The warning object: `{action, message}`. -/
structure Warning where
  action : String
  message : String
deriving DecidableEq, Repr

/-- `state.value` of the interpreter: tagged primitive-or-not, with
`data = none` meaning the primitive's `data` is `undefined`. -/
structure Value where
  isPrimitive : Bool
  data : Option String
deriving DecidableEq, Repr

/-- `state.scope`: only the declared-variable names (`Object.keys(scope.properties)`)
are relevant to the builder. -/
structure ScopeObj where
  properties : List String
deriving DecidableEq, Repr

/-- `state.func_`: the function object being invoked, with its `nativeFunc`
flag and the names of its formal parameters (`pluck(func_.node.params, 'name')`). -/
structure FuncObj where
  nativeFunc : Bool
  params : List String
deriving DecidableEq, Repr

/-- `state.node.callee`: its `type`, its `name` (absent for function
expressions) and `id.name` (`idName = none` models a missing `id`, so that
reading `callee.id.name` raises a `TypeError`). -/
structure Callee where
  type : String
  name : Option String
  idName : Option String
deriving DecidableEq, Repr

/-- One interpreter execution state (`interpreter.stateStack[0]`), restricted
to the fields the builder reads.  `argIds` and `displayArgs` are the results
of the formatting collaborator's `getArgIdentifiers` / `getDisplayArgs` on
`state.node` (pure functions of the syntax node, carried with the state). -/
structure StepState where
  nodeType : String
  callee : Option Callee
  doneCallee : Bool
  doneExec : Bool
  doneLeft : Bool
  doneRight : Bool
  leftName : JsStr
  argIds : List (Option String)
  displayArgs : List String
  scope : Option ScopeObj
  func : Option FuncObj
  n : Nat
  value : Option Value
deriving DecidableEq, Repr

/-- The `info` record of a call node.  `paramIds = none` and
`variablesDeclaredInScope = none` model the fields being `undefined` until
first assigned.  `errorCount` is only meaningful on the root node. -/
structure NodeInfo where
  name : String
  argumentIds : List (Option String)
  displayArgs : List String
  displayName : String
  callerNode : Option NodeId
  type : String
  status : String
  paramIds : Option (List String)
  variablesDeclaredInScope : Option (List String)
  errorCount : Nat
deriving DecidableEq, Repr

instance : Inhabited NodeInfo :=
  ⟨{ name := "", argumentIds := [], displayArgs := [], displayName := "",
     callerNode := none, type := "", status := "", paramIds := none,
     variablesDeclaredInScope := none, errorCount := 0 }⟩

/-- A call link: source and target node references, its `state`
(`"calling"` or `"returning"`) and its creation-ordered `linkIndex`. -/
structure Link where
  source : NodeId
  target : NodeId
  state : String
  linkIndex : Nat
deriving DecidableEq, Repr

/-- The closure state of one `VisibleFunctionUpdater` instance: the mutable
variables declared at the top of the source function. -/
structure Builder where
  heap : List NodeInfo
  nodes : List NodeId
  links : List Link
  scopeChain : List NodeId
  currentScope : Option ScopeObj
  updatedDisplayArgs : List (Option String)
  rootNode : Option NodeId
  linkIndex : Nat
  rootNodeIndex : Nat
  recursion : Bool
  warning : Option Warning
  assignmentWarningVar : JsStr
  exitingNode : Option NodeId
  state : Option StepState
  prevState : Option StepState
deriving DecidableEq, Repr

/-- Dereference an optional value; `none` models reading a property of
`null`/`undefined`, a `TypeError`. -/
def jsDeref : Option α → Except JsErr α
  | some a => Except.ok a
  | none => Except.error JsErr.typeError

/-- Read a node's `info` record through its reference. -/
def getInfo (heap : List NodeInfo) (i : NodeId) : NodeInfo :=
  heap.getD i default

/-- Mutate a node's `info` record through its reference. -/
def updateInfo (heap : List NodeInfo) (i : NodeId) (f : NodeInfo → NodeInfo) :
    List NodeInfo :=
  heap.set i (f (getInfo heap i))

/-- `Array.prototype.splice(start, cnt)` restricted to non-negative
arguments (the only way the source calls it). -/
def jsSplice (l : List α) (start cnt : Nat) : List α :=
  l.take start ++ l.drop (start + cnt)

/-- lodash `includes(collection, value)`: `false` on an `undefined`
collection, and only a string value can be contained in a list of names. -/
def jsIncludes (l : Option (List String)) (x : JsStr) : Bool :=
  match l, x with
  | some l, JsStr.str s => l.contains s
  | _, _ => false

/-- JavaScript `arr[i] = v` on a possibly-sparse array: extends with holes
(`none`) when `i` is beyond the current length. -/
def jsSetSparse (l : List (Option String)) (i : Nat) (v : String) :
    List (Option String) :=
  if i < l.length then l.set i (some v)
  else l ++ List.replicate (i - l.length) none ++ [some v]

namespace formatOutput

/-- Modelled from the spec: the formatting collaborator `formatOutput.js` is
not part of the analyzed source; §6 specifies it as "given a callee name,
display args, and recursion flag, produce a composed display label". Modelled
as a concrete composition; no theorem depends on its exact output. -/
def displayName (name : String) (displayArgs : List String) (recursion : Bool) :
    String :=
  name ++ ("(") ++ String.intercalate (", ") displayArgs ++ (")") ++
    (if recursion then (" [recursion]") else (""))

/-- Modelled from the spec: `formatOutput.interpreterIdentifier` — "given a
value (and optionally an original identifier), produce its formatted textual
representation" (§6).  Primitives are shown by direct value, non-primitives
via their original identifier.  No theorem depends on its exact output. -/
def interpreterIdentifier (value : Option Value) (originalIdentifier : Option String) :
    String :=
  match value with
  | some v =>
    if v.isPrimitive then v.data.getD ("undefined")
    else originalIdentifier.getD ("[Object]")
  | none => "undefined"

end formatOutput

/-- `isSupportedFunctionCall`: a call expression whose callee has not been
resolved yet and is not a member expression. -/
def isSupportedFunctionCall (st : StepState) : Bool :=
  (st.nodeType = "CallExpression" && !st.doneCallee) &&
  !(match st.callee with
    | some c => c.type = "MemberExpression"
    | none => false)

/-- `isSupportedReturnToCaller`: a call expression that has finished
executing and whose callee is not a member expression. -/
def isSupportedReturnToCaller (st : StepState) : Bool :=
  (st.nodeType = "CallExpression" && st.doneExec) &&
  !(match st.callee with
    | some c => c.type = "MemberExpression"
    | none => false)

/-- `callee.id.name`, a `TypeError` when `id` is missing. -/
def idNameOf (c : Callee) : Except JsErr String :=
  jsDeref c.idName

/-- `state.node.callee.name || state.node.callee.id.name` (an empty string is
falsy and also falls through to `id.name`). -/
def calleeNameOf (c : Callee) : Except JsErr String :=
  match c.name with
  | some n => if n = "" then idNameOf c else Except.ok n
  | none => idNameOf c

/-- `getCallLink`: builds a link only when both endpoints are non-null,
consuming one fresh `linkIndex`; returns the link and the advanced counter. -/
def getCallLink (source target : Option NodeId) (linkState : String)
    (counter : Nat) : Option (Link × Nat) :=
  match source, target with
  | some s, some t => some (⟨s, t, linkState, counter⟩, counter + 1)
  | _, _ => none

/-- The argument-provenance substitution loop inside `addEnteringFunction`:
`argumentIds.forEach((arg, i) => ...)` writes each index exactly once from
that index's original element, so the in-place loop is a `map`.  A raw
argument that is one of the caller's parameter names is replaced by the
caller's own argument identifier at the first matching parameter index
(`indexOf`); out-of-range reads produce `undefined` (`none`). -/
def substituteArgs (callerParams : List String)
    (callerArgs : List (Option String)) (args : List (Option String)) :
    List (Option String) :=
  args.map fun arg =>
    match arg with
    | none => arg
    | some s =>
      let callerParamIndex := callerParams.indexOf s
      if callerParamIndex < callerParams.length then
        callerArgs.getD callerParamIndex none
      else arg

/-- `addEnteringFunction`: on a supported call, resolve the callee name, take
the caller from the top of the scope chain, substitute argument provenance,
create the node (the very first node becomes the root), append it, link it
from its caller, and push it onto the scope chain. -/
def addEnteringFunction (b : Builder) (st : StepState) :
    Except JsErr (Builder × Bool) :=
  if isSupportedFunctionCall st then
    match st.callee with
    | none => Except.error JsErr.typeError
    | some c =>
      match calleeNameOf c with
      | Except.error e => Except.error e
      | Except.ok calleeName =>
        let callerNode := b.scopeChain.getLast?
        let (recursion, argumentIds) :=
          match callerNode with
          | none => (false, st.argIds)
          | some cid =>
            let ci := getInfo b.heap cid
            (calleeName = ci.name,
             match ci.paramIds with
             | some callerParams =>
               substituteArgs callerParams ci.argumentIds st.argIds
             | none => st.argIds)
        let displayArgs := st.displayArgs
        let newId := b.heap.length
        let isFirst := b.nodes.length = 0
        let info : NodeInfo :=
          { name := calleeName
            argumentIds := argumentIds
            displayArgs := displayArgs
            displayName := formatOutput.displayName calleeName displayArgs recursion
            callerNode := callerNode
            type := if isFirst then "root" else "function"
            status := if isFirst then "success" else "normal"
            paramIds := none
            variablesDeclaredInScope := none
            errorCount := 0 }
        let (links', linkIndex') :=
          match getCallLink callerNode (some newId) ("calling") b.linkIndex with
          | some (callLink, counter) => (b.links ++ [callLink], counter)
          | none => (b.links, b.linkIndex)
        Except.ok
          ({ b with
              heap := b.heap ++ [info]
              nodes := b.nodes ++ [newId]
              links := links'
              linkIndex := linkIndex'
              scopeChain := b.scopeChain ++ [newId]
              rootNode := if isFirst then some newId else b.rootNode
              recursion := recursion }, true)
  else Except.ok (b, false)

/-- `isNotExitingRootNode`: blocks the exit of the outermost program-wrapper
call (compared by name against the root node); reads `callee.id.name`, a
`TypeError` when the callee or its `id` is missing. -/
def isNotExitingRootNode (st : StepState) (rootName : String) :
    Except JsErr Bool :=
  match
    (if st.nodeType = "FunctionExpression" then
      match st.callee with
      | none => Except.error JsErr.typeError
      | some c =>
        match idNameOf c with
        | Except.error e => Except.error e
        | Except.ok idn => Except.ok (idn = rootName)
    else Except.ok false : Except JsErr Bool) with
  | Except.error e => Except.error e
  | Except.ok c1 =>
    if c1 then Except.ok false
    else
      match
        (if st.nodeType = "CallExpression" then
          match st.callee with
          | none => Except.error JsErr.typeError
          | some c =>
            if c.type = "FunctionExpression" then
              match idNameOf c with
              | Except.error e => Except.error e
              | Except.ok idn => Except.ok (idn = rootName)
            else Except.ok false
        else Except.ok false : Except JsErr Bool) with
      | Except.error e => Except.error e
      | Except.ok c2 => Except.ok (!c2)

/-- `exitLink`: with a usable return value the exiting `calling` link is
replaced by a reversed `returning` link (unshifted to the front, the original
popped off the back); with no usable value the root's error count grows, the
target is marked `failure`, the caller is marked `warning` (or the root's
status is cleared), a referential-transparency warning fires, and the link is
popped without a replacement. -/
def exitLink (b : Builder) (st : StepState) (exitingLink : Link) :
    Except JsErr Builder :=
  match st.value with
  | none => Except.error JsErr.typeError
  | some v =>
    if (st.doneCallee && (v.isPrimitive && v.data.isSome)) || !v.isPrimitive then
      let heap' := updateInfo b.heap exitingLink.target
        (fun i => { i with status := "returning" })
      match getCallLink (some exitingLink.target) (some exitingLink.source)
          ("returning") b.linkIndex with
      | some (returnLink, linkIndex') =>
        Except.ok { b with
          heap := heap'
          links := (returnLink :: b.links).dropLast
          linkIndex := linkIndex' }
      | none => Except.error JsErr.typeError
    else
      match b.rootNode with
      | none => Except.error JsErr.typeError
      | some r =>
        let heap1 := updateInfo b.heap r
          (fun i => { i with errorCount := i.errorCount + 1 })
        let heap2 := updateInfo heap1 exitingLink.target
          (fun i => { i with status := "failure" })
        let heap3 :=
          if exitingLink.source ≠ r then
            updateInfo heap2 exitingLink.source
              (fun i => { i with status := "warning" })
          else
            updateInfo heap2 r (fun i => { i with status := "" })
        Except.ok { b with
          heap := heap3
          links := b.links.dropLast
          warning := some ⟨"Principle: Referential transparency",
                           "Function does not return a value"⟩ }

/-- `exitNode`: rewrite the exiting node's display label with the returned
value, pop it off the live end of the node list, unshift it to the
retained-window front, and advance `rootNodeIndex`. -/
def exitNode (b : Builder) (st : StepState) : Except JsErr Builder :=
  match b.exitingNode with
  | none => Except.error JsErr.typeError
  | some e =>
    let info := getInfo b.heap e
    let originalIdentifier :=
      if st.n = 0 then none else info.displayArgs.get? (st.n - 1)
    let returnValue := formatOutput.interpreterIdentifier st.value originalIdentifier
    Except.ok { b with
      heap := updateInfo b.heap e
        (fun i => { i with displayName := "return (" ++ returnValue ++ ")" })
      nodes := e :: b.nodes.dropLast
      rootNodeIndex := b.rootNodeIndex + 1 }

/-- `removeOldestReturned`: evict the oldest retained returned nodes (and,
when more than one node remains, their links).  Only called when
`rootNodeIndex > maxAllowedReturnNodes`, so the JavaScript subtractions are
non-negative and `Nat` subtraction coincides with them. -/
def removeOldestReturned (b : Builder) (maxAllowedReturnNodes : Nat) : Builder :=
  let itemsToRemoveCount := b.rootNodeIndex - maxAllowedReturnNodes
  let removalStartIndex := b.rootNodeIndex - itemsToRemoveCount
  { b with
    links :=
      if b.nodes.length > 1 then
        jsSplice b.links removalStartIndex itemsToRemoveCount
      else b.links
    nodes := jsSplice b.nodes removalStartIndex itemsToRemoveCount
    rootNodeIndex := b.rootNodeIndex - itemsToRemoveCount }

/-- `removeExitingFunction`: on a supported, non-root exit, process the most
recent link (if any) through `exitLink`, record and move the exiting node
(`exitingNode = last(scopeChain)`), reset the assignment-warning suppression
variable, and evict beyond the retained window. -/
def removeExitingFunction (b : Builder) (st : StepState)
    (maxAllowedReturnNodes : Nat) : Except JsErr (Builder × Bool) :=
  if isSupportedReturnToCaller st then
    match b.rootNode with
    | none => Except.error JsErr.typeError
    | some r =>
      match isNotExitingRootNode st (getInfo b.heap r).name with
      | Except.error e => Except.error e
      | Except.ok notRoot =>
        if notRoot then
          match
            (match b.links.getLast? with
             | some link =>
               match exitLink b st link with
               | Except.error e => Except.error e
               | Except.ok b1 =>
                 exitNode { b1 with exitingNode := b1.scopeChain.getLast? } st
             | none => Except.ok b : Except JsErr Builder) with
          | Except.error e => Except.error e
          | Except.ok b2 =>
            let b3 := { b2 with assignmentWarningVar := JsStr.nullv }
            Except.ok
              (if b3.rootNodeIndex > maxAllowedReturnNodes then
                removeOldestReturned b3 maxAllowedReturnNodes
              else b3, true)
        else Except.ok (b, false)
  else Except.ok (b, false)

/-- `getVariablesInScope`: on a state carrying a scope object, reset the
accumulated display-args buffer, record the scope, and snapshot the declared
variable names onto the current call node. -/
def getVariablesInScope (b : Builder) (st : StepState)
    (updateNode : Option NodeId) : Builder :=
  match st.scope with
  | some sc =>
    let b := { b with updatedDisplayArgs := [], currentScope := some sc }
    match updateNode with
    | some u =>
      let heap' := updateInfo b.heap u
        (fun i => { i with variablesDeclaredInScope := some sc.properties })
      { b with heap := heap' }
    | none => b
  | none => b

/-- `updateParamsIdsFromCaller`: on a state carrying a non-native function
object, record its formal parameter names on the current call node (a
`TypeError` when there is no current call node). -/
def updateParamsIdsFromCaller (b : Builder) (st : StepState)
    (updateNode : Option NodeId) : Except JsErr Builder :=
  match st.func with
  | some f =>
    if !f.nativeFunc then
      match updateNode with
      | some u =>
        let heap' := updateInfo b.heap u (fun i => { i with paramIds := some f.params })
        Except.ok { b with heap := heap' }
      | none => Except.error JsErr.typeError
    else Except.ok b
  | none => Except.ok b

/-- `isFunctionReturnUnassigned`: if a node is pending its assignment check
and the next step is not a variable declarator, warn (caller marked
`warning`, root error count incremented); the pending marker is cleared
regardless. -/
def isFunctionReturnUnassigned (b : Builder) (st : StepState)
    (_updateNode : NodeId) : Except JsErr (Builder × Bool) :=
  match b.exitingNode with
  | some e =>
    if st.nodeType ≠ "VariableDeclarator" then
      match (getInfo b.heap e).callerNode with
      | none => Except.error JsErr.typeError
      | some c =>
        let heap1 := updateInfo b.heap c (fun i => { i with status := "warning" })
        match b.rootNode with
        | none => Except.error JsErr.typeError
        | some r =>
          Except.ok
            ({ b with
                heap := updateInfo heap1 r
                  (fun i => { i with errorCount := i.errorCount + 1 })
                warning := some ⟨"Principle: Side effects",
                                 "Function result is not assigned to a value"⟩
                exitingNode := none }, true)
    else Except.ok ({ b with exitingNode := none }, false)
  | none => Except.ok (b, false)

/-- The `while` loop of `isVariableModifiedOutOfScope`, walking `callerNode`
back-references: `while (!(found = includes(cur.vars, name)) || cur.callerNode !== null)
cur = cur.callerNode.info`.  The loop body dereferences a `null` caller
(`TypeError`) whenever it runs with `cur.callerNode === null`.  Fuel bounds
the recursion; caller chains are acyclic so `heap.length + 1` never runs out. -/
def scopeWalk (heap : List NodeInfo) (assignedExpression : JsStr) :
    Nat → NodeId → Except JsErr (Bool × NodeId)
  | 0, _ => Except.error JsErr.fuelExhausted
  | fuel + 1, cur =>
    let info := getInfo heap cur
    let varPresentInScope := jsIncludes info.variablesDeclaredInScope assignedExpression
    if !varPresentInScope || info.callerNode.isSome then
      match info.callerNode with
      | some c => scopeWalk heap assignedExpression fuel c
      | none => Except.error JsErr.typeError
    else Except.ok (varPresentInScope, cur)

/-- The classification block of `isVariableModifiedOutOfScope` (the body of
its outer `if`, up to the de-duplication lines): local mutation / found by
the scope walk / not found, each setting statuses and the warning slot. -/
def assignmentClassify (b : Builder) (_st : StepState) (updateNode : NodeId)
    (assignedExpression : JsStr) : Except JsErr Builder :=
  if !(jsIncludes (getInfo b.heap updateNode).variablesDeclaredInScope
         assignedExpression) then
    match scopeWalk b.heap assignedExpression (b.heap.length + 1) updateNode with
    | Except.error e => Except.error e
    | Except.ok (varPresentInScope, callerNode) =>
      if varPresentInScope then
        match b.rootNode with
        | none => Except.error JsErr.typeError
        | some r =>
          let heap1 := updateInfo b.heap r
            (fun i => { i with errorCount := i.errorCount + 1 })
          let heap2 := updateInfo heap1 updateNode
            (fun i => { i with status := "warning" })
          Except.ok { b with
            heap := updateInfo heap2 callerNode
              (fun i => { i with status := "warning" })
            warning := some ⟨"Principle: Side effects",
                             "Function has mutated variable in another scope"⟩ }
      else
        match b.rootNode with
        | none => Except.error JsErr.typeError
        | some r =>
          let heap1 := updateInfo b.heap r
            (fun i => { i with errorCount := i.errorCount + 1 })
          Except.ok { b with
            heap := updateInfo heap1 updateNode
              (fun i => { i with status := "failure" })
            warning := some ⟨"Principle: Side effects",
                             "Function refers to an external variable that does not exist in the scope chain"⟩ }
  else
    Except.ok { b with
      heap := updateInfo b.heap updateNode
        (fun i => { i with status := "notice" })
      warning := some ⟨"Principle: Immutability",
                       "Function has changed a variable in scope after creation"⟩ }

/-- `isVariableModifiedOutOfScope`: on a completed assignment, classify the
assigned name through `assignmentClassify`, and report `updateNeeded` only
when the name differs from the previous assignment's; the suppression
variable is updated either way. -/
def isVariableModifiedOutOfScope (b : Builder) (st : StepState)
    (updateNode : NodeId) : Except JsErr (Builder × Bool) :=
  if st.nodeType = "AssignmentExpression" && st.doneLeft && st.doneRight then
    let assignedExpression := st.leftName
    match assignmentClassify b st updateNode assignedExpression with
    | Except.error e => Except.error e
    | Except.ok b' =>
      let conditionMet := decide (b'.assignmentWarningVar ≠ assignedExpression)
      Except.ok ({ b' with assignmentWarningVar := assignedExpression }, conditionMet)
  else Except.ok (b, false)

/-- `doesDisplayNameNeedUpdating`: while arguments of a call are being
evaluated, store each finished argument's formatted value at its positional
index in the accumulating buffer; once the buffer matches the declared
argument count, commit differing non-empty positions and recompute the
display label. -/
def doesDisplayNameNeedUpdating (b : Builder) (st : StepState)
    (updateNode : NodeId) : Except JsErr (Builder × Bool) :=
  if st.doneCallee && !st.doneExec then
    match
      (if st.n ≠ 0 then
        let argIndex := st.n - 1
        let identifier := (getInfo b.heap updateNode).argumentIds.getD argIndex none
        match st.value with
        | none => Except.error JsErr.typeError
        | some v =>
          let formatted :=
            if v.isPrimitive then formatOutput.interpreterIdentifier (some v) none
            else formatOutput.interpreterIdentifier (some v) identifier
          Except.ok { b with
            updatedDisplayArgs := jsSetSparse b.updatedDisplayArgs argIndex formatted }
      else Except.ok b : Except JsErr Builder) with
    | Except.error e => Except.error e
    | Except.ok b =>
      let uInfo := getInfo b.heap updateNode
      if uInfo.displayArgs.length ≠ 0 &&
         b.updatedDisplayArgs.length = uInfo.displayArgs.length then
        let upd := b.updatedDisplayArgs
        let (displayArgs', conditionMet) :=
          (List.range upd.length).foldl
            (fun (acc : List String × Bool) i =>
              match upd.getD i none with
              | none => acc
              | some updateArg =>
                let displayArg := acc.1.getD i ""
                if updateArg ≠ "" && updateArg ≠ displayArg then
                  (acc.1.set i updateArg, true)
                else acc)
            (uInfo.displayArgs, false)
        Except.ok
          ({ b with
              heap := updateInfo b.heap updateNode
                (fun i => { i with
                    displayArgs := displayArgs'
                    displayName := formatOutput.displayName i.name displayArgs' b.recursion }) },
           conditionMet)
      else Except.ok (b, false)
  else Except.ok (b, false)

/-- `updateEnteringFunction`: run the scope refresh and parameter recording,
then the three checks combined with JavaScript's short-circuiting `||`. -/
def updateEnteringFunction (b : Builder) (st : StepState) :
    Except JsErr (Builder × Bool) :=
  let updateNode := if b.scopeChain.length ≠ 0 then b.scopeChain.getLast? else none
  let b := getVariablesInScope b st updateNode
  match updateParamsIdsFromCaller b st updateNode with
  | Except.error e => Except.error e
  | Except.ok b =>
    match updateNode with
    | some u =>
      match isFunctionReturnUnassigned b st u with
      | Except.error e => Except.error e
      | Except.ok (b, r1) =>
        if r1 then Except.ok (b, true)
        else
          match isVariableModifiedOutOfScope b st u with
          | Except.error e => Except.error e
          | Except.ok (b, r2) =>
            if r2 then Except.ok (b, true)
            else doesDisplayNameNeedUpdating b st u
    | none => Except.ok (b, false)

/-- The body of `action` once both a current and a previous state exist:
try add, remove, update in order with short-circuiting `||`. -/
def actionCore (b : Builder) (st : StepState) (maxAllowedReturnNodes : Nat) :
    Except JsErr (Builder × Bool × Option Warning) :=
  match addEnteringFunction b st with
  | Except.error e => Except.error e
  | Except.ok (b, a1) =>
    if a1 then Except.ok (b, true, b.warning)
    else
      match removeExitingFunction b st maxAllowedReturnNodes with
      | Except.error e => Except.error e
      | Except.ok (b, a2) =>
        if a2 then Except.ok (b, true, b.warning)
        else
          match updateEnteringFunction b st with
          | Except.error e => Except.error e
          | Except.ok (b, a3) => Except.ok (b, a3, b.warning)

/-- The `action` entry point: clear the warning slot, record the current
stack top, and — only when both a current and a previous state exist — run
`actionCore`. -/
def action (b : Builder) (stackTop : Option StepState)
    (maxAllowedReturnNodes : Nat) : Except JsErr (Builder × Bool × Option Warning) :=
  let b := { b with warning := none, state := stackTop }
  match stackTop, b.prevState with
  | some st, some _ => actionCore b st maxAllowedReturnNodes
  | _, _ => Except.ok (b, false, b.warning)

/-- `setPrevState` (exposed as `nextStep`): record the current state as the
previous one, when a current state exists. -/
def setPrevState (b : Builder) : Builder :=
  match b.state with
  | some st => { b with prevState := some st }
  | none => b

/-- `finish`: mark the root node `finished` as its terminal visual state. -/
def finish (b : Builder) : Except JsErr Builder :=
  match b.rootNode with
  | none => Except.error JsErr.typeError
  | some r =>
    Except.ok { b with
      heap := updateInfo b.heap r (fun i => { i with status := "finished" }) }

/-- The builder state constructed by `VisibleFunctionUpdater(resetNodes,
resetLinks)`: all closure variables at their initial values. -/
def VisibleFunctionUpdater (resetNodes : List NodeId) (resetLinks : List Link) :
    Builder :=
  { heap := [], nodes := resetNodes, links := resetLinks, scopeChain := [],
    currentScope := none, updatedDisplayArgs := [], rootNode := none,
    linkIndex := 0, rootNodeIndex := 0, recursion := false, warning := none,
    assignmentWarningVar := JsStr.nullv, exitingNode := none, state := none,
    prevState := none }

/-- A fresh builder over empty node and link collections. -/
def initialBuilder : Builder :=
  VisibleFunctionUpdater [] []

/-- One driver step: `action` on the current stack top followed by
`nextStep` (`setPrevState`). -/
def step (b : Builder) (stackTop : Option StepState)
    (maxAllowedReturnNodes : Nat) : Except JsErr (Builder × Bool × Option Warning) :=
  match action b stackTop maxAllowedReturnNodes with
  | Except.error e => Except.error e
  | Except.ok (b', done, w) => Except.ok (setPrevState b', done, w)

/-- Run a sequence of driver steps. -/
def runTrace (b : Builder) : List (Option StepState × Nat) → Except JsErr Builder
  | [] => Except.ok b
  | (stackTop, m) :: rest =>
    match step b stackTop m with
    | Except.ok (b', _, _) => runTrace b' rest
    | Except.error e => Except.error e

/-- A Bool-valued per-step well-formedness condition matching the driver
contract of §5: a processed exit (supported return, root guard passed, a link
present) must leave at least one live non-root frame, i.e. the live region of
the node list has length at least two. -/
def exitGuardPasses (b : Builder) (st : StepState) : Bool :=
  match b.rootNode with
  | some r =>
    match isNotExitingRootNode st (getInfo b.heap r).name with
    | Except.ok t => t
    | Except.error _ => false
  | none => false

/-- The processed-step condition of `wfStep`: a step is well formed when it
is not a processed exit taken with fewer than two live nodes. -/
def wfStepBody (b : Builder) (st : StepState) : Bool :=
  !(!(isSupportedFunctionCall st) && (isSupportedReturnToCaller st &&
    (exitGuardPasses b st && (!b.links.isEmpty &&
    decide (b.nodes.length < b.rootNodeIndex + 2)))))

/-- A step is well formed when it is not a processed exit taken with fewer
than two live nodes (the depth-first driver of §5 only exits frames it has
entered, and the root's own exit is blocked by the name guard). -/
def wfStep (b : Builder) (stackTop : Option StepState) : Bool :=
  match stackTop, b.prevState with
  | some st, some _ => wfStepBody b st
  | _, _ => true

/-- A trace is well formed when every step is, in the states the run
actually reaches. -/
def wfTrace (b : Builder) : List (Option StepState × Nat) → Bool
  | [] => true
  | (stackTop, m) :: rest =>
    wfStep b stackTop &&
    (match step b stackTop m with
     | Except.ok (b', _, _) => wfTrace b' rest
     | Except.error _ => true)

/-- Interpreter states and traces used by the concrete theorems below. -/
def dummyState : StepState :=
  { nodeType := "Program", callee := none, doneCallee := false, doneExec := false,
    doneLeft := false, doneRight := false, leftName := JsStr.undef,
    argIds := [], displayArgs := [], scope := none, func := none, n := 0, value := none }

/-- Entry of the program-wrapper call (the root). -/
def enterProgramState : StepState :=
  { dummyState with
      nodeType := "CallExpression",
      callee := some ⟨"FunctionExpression", none, some ("program")⟩ }

/-- Entry of a user function `a()`. -/
def enterAState : StepState :=
  { dummyState with
      nodeType := "CallExpression",
      callee := some ⟨"Identifier", some ("a"), none⟩ }

/-- Exit of `a()` with a defined primitive return value. -/
def exitAOkState : StepState :=
  { dummyState with
      nodeType := "CallExpression",
      doneCallee := true,
      doneExec := true,
      callee := some ⟨"Identifier", some ("a"), none⟩,
      value := some ⟨true, some ("5")⟩ }

/-- Exit of `a()` with an undefined primitive value (no usable return). -/
def exitABadState : StepState :=
  { dummyState with
      nodeType := "CallExpression",
      doneCallee := true,
      doneExec := true,
      callee := some ⟨"Identifier", some ("a"), none⟩,
      value := some ⟨true, none⟩ }

/-- Trace: prime the previous state, enter the root, enter `a`, exit `a`
normally. -/
def c1Trace : List (Option StepState × Nat) :=
  [(some dummyState, 1), (some enterProgramState, 1), (some enterAState, 1),
   (some exitAOkState, 1)]

/-- Trace: prime, enter the root, enter `a`, exit `a` with no usable value. -/
def c2Trace : List (Option StepState × Nat) :=
  [(some dummyState, 1), (some enterProgramState, 1), (some enterAState, 1),
   (some exitABadState, 1)]

/-- Root frame declaring only `b`. -/
def rootFrameInfo : NodeInfo :=
  { name := "program", argumentIds := [], displayArgs := [], displayName := "",
    callerNode := none, type := "root", status := "success", paramIds := none,
    variablesDeclaredInScope := some ["b"], errorCount := 0 }

/-- Live frame `a` (caller: the root) declaring only `a`. -/
def aFrameInfo : NodeInfo :=
  { name := "a", argumentIds := [], displayArgs := [], displayName := "",
    callerNode := some 0, type := "function", status := "normal", paramIds := none,
    variablesDeclaredInScope := some ["a"], errorCount := 0 }

/-- A builder mid-run: root entered, `a` entered and live. -/
def midRunB : Builder :=
  { initialBuilder with
      heap := [rootFrameInfo, aFrameInfo],
      nodes := [0, 1],
      links := [⟨0, 1, "calling", 0⟩],
      scopeChain := [0, 1],
      rootNode := some 0,
      linkIndex := 1 }

/-- A completed assignment step to the name `z`. -/
def assignZState : StepState :=
  { dummyState with
      nodeType := "AssignmentExpression",
      doneLeft := true,
      doneRight := true,
      leftName := JsStr.str ("z") }

/-- Three-frame chain: the middle frame declares `z`, the root does not. -/
def midDeclaresZInfo : NodeInfo :=
  { aFrameInfo with variablesDeclaredInScope := some ["z"] }

/-- Innermost frame of the three-frame chain (declares nothing). -/
def topFrameInfo : NodeInfo :=
  { aFrameInfo with callerNode := some 1, variablesDeclaredInScope := some [] }

/-- Builder with the three-frame chain root ← mid ← top. -/
def threeChainB : Builder :=
  { midRunB with
      heap := [rootFrameInfo, midDeclaresZInfo, topFrameInfo],
      nodes := [0, 1, 2],
      scopeChain := [0, 1, 2] }

/-- Builder whose current frame declares `z` (local-mutation branch). -/
def localZB : Builder :=
  { midRunB with heap := [rootFrameInfo, midDeclaresZInfo] }

/-- `localZB` with a node pending its assignment check. -/
def pendingExitB : Builder :=
  { localZB with exitingNode := some 1 }

/-- Extract the builder from an ok result. -/
def okBuilder (x : Except JsErr Builder) : Builder :=
  match x with
  | Except.ok b => b
  | Except.error _ => initialBuilder

/-- Extract the builder from an ok (builder, flag) result. -/
def okFstBuilder (x : Except JsErr (Builder × Bool)) : Builder :=
  match x with
  | Except.ok (b, _) => b
  | Except.error _ => initialBuilder

theorem getInfo_append_lt (h l : List NodeInfo) (i : NodeId) (hi : i < h.length) :
    getInfo (h ++ l) i = getInfo h i := by
  simp [getInfo, List.getD, List.getElem?_append, hi]

theorem getInfo_append_self (h : List NodeInfo) (x : NodeInfo) :
    getInfo (h ++ [x]) h.length = x := by
  simp [getInfo, List.getD, List.getElem?_append_right (Nat.le_refl h.length)]

theorem getInfo_set_eq (h : List NodeInfo) (i : NodeId) (x : NodeInfo)
    (hi : i < h.length) : getInfo (h.set i x) i = x := by
  simp [getInfo, List.getD, List.getElem?_set_self, hi]

theorem getInfo_set_ne (h : List NodeInfo) (i j : NodeId) (x : NodeInfo)
    (hij : i ≠ j) : getInfo (h.set i x) j = getInfo h j := by
  simp [getInfo, List.getD, List.getElem?_set_ne hij]

theorem length_updateInfo (h : List NodeInfo) (i : NodeId) (f : NodeInfo → NodeInfo) :
    (updateInfo h i f).length = h.length := by
  simp [updateInfo]

theorem getInfo_updateInfo_ne (h : List NodeInfo) (i j : NodeId)
    (f : NodeInfo → NodeInfo) (hij : i ≠ j) :
    getInfo (updateInfo h i f) j = getInfo h j :=
  getInfo_set_ne h i j _ hij

theorem getInfo_updateInfo_eq (h : List NodeInfo) (i : NodeId)
    (f : NodeInfo → NodeInfo) (hi : i < h.length) :
    getInfo (updateInfo h i f) i = f (getInfo h i) :=
  getInfo_set_eq h i _ hi

theorem getInfo_updateInfo_proj {α : Type} (g : NodeInfo → α)
    (f : NodeInfo → NodeInfo) (hf : ∀ x, g (f x) = g x) (h : List NodeInfo)
    (i j : NodeId) : g (getInfo (updateInfo h i f) j) = g (getInfo h j) := by
  by_cases hij : i = j
  · subst hij
    by_cases hi : i < h.length
    · rw [getInfo_updateInfo_eq h i f hi, hf]
    · rw [updateInfo, List.set_eq_of_length_le (Nat.le_of_not_lt hi)]
  · rw [getInfo_updateInfo_ne h i j f hij]

/-- C1: the claim states that every processed function-exit step pops the
exiting node off the scope chain, so that the chain holds exactly the
entered-but-not-yet-exited nodes.  The code never pops `scopeChain`: after
entering the root and `a` and then processing the normal exit of `a` (the
node list shows the exit was processed: `a` was moved to the retained front
and `rootNodeIndex` advanced to 1), the scope chain still contains both
nodes.  The claim would require it to be `[0]`. -/
theorem C1_scope_chain_never_popped :
    (runTrace initialBuilder c1Trace).map
      (fun b => (b.scopeChain, b.nodes, b.rootNodeIndex)) =
    Except.ok ([0, 1], [1, 0], 1) := by
  rfl

/-- C2 counterexample: after entering the root and `a` and processing an
exit of `a` that produced no usable value, the scope chain is non-empty yet
`links.length = 0` and `nodes.length = 2`, so `links.length ≠ nodes.length - 1`:
the claimed invariant does not survive a no-return exit. -/
theorem C2_counterexample_no_return_exit :
    (runTrace initialBuilder c2Trace).map
      (fun b => (b.links.length, b.nodes.length, b.scopeChain.isEmpty)) =
      Except.ok (0, 2, false) ∧ (0 : Nat) ≠ 2 - 1 := by
  exact ⟨rfl, by decide⟩

/-- C3: the claim states the out-of-scope-mutation walk stops at the first
ancestor frame declaring the name, or treats an exhausted chain as "not
found", never dereferencing a null caller.  In the code the loop condition
`!(found) || caller !== null` keeps walking to the null-caller frame, so:
(first conjunct) with frames root ← `a` where neither declares `z`, the walk
dereferences the root's null caller — a TypeError — instead of reporting
"not found"; (second conjunct) with frames root ← mid ← top where only the
middle frame declares `z`, the walk does not stop at that first matching
ancestor and again crashes at the root. -/
theorem C3_scope_walk_null_deref :
    isVariableModifiedOutOfScope midRunB assignZState 1 =
      Except.error JsErr.typeError ∧
    isVariableModifiedOutOfScope threeChainB assignZState 2 =
      Except.error JsErr.typeError := by
  exact ⟨rfl, rfl⟩

/-- C10: on an invocation of the step-advance operation before any previous
state has been recorded, `action` only clears the warning slot and records
the stack top: the node list, link list, scope chain and counters are
untouched and the result is `[false, null]`. -/
theorem C10_first_step_no_mutation (b : Builder) (stackTop : Option StepState)
    (maxAllowedReturnNodes : Nat) (hprev : b.prevState = none) :
    action b stackTop maxAllowedReturnNodes =
      Except.ok ({ b with warning := none, state := stackTop }, false, none) := by
  obtain ⟨heap, nodes, links, sc, cs, uda, rn, li, rni, rec, w, awv, en, stt, pv⟩ := b
  simp only [Builder.mk.injEq] at hprev ⊢
  subst hprev
  cases stackTop <;> rfl

/-- C10 witness: the first invocation on a fresh builder, with a genuine
entry state on the stack, performs no mutation and reports no update. -/
theorem C10_first_step_no_mutation_witness :
    action initialBuilder (some enterProgramState) 3 =
      Except.ok ({ initialBuilder with
                    warning := none,
                    state := some enterProgramState }, false, none) :=
  C10_first_step_no_mutation initialBuilder (some enterProgramState) 3 rfl

/-- C4: a function-exit step whose value is an undefined primitive (no
usable value) marks the link's target `failure`, increments the root's
`errorCount`, marks the caller `warning` (or clears the root's status when
the caller is the root), emits the referential-transparency warning, and
removes the most recent link without creating a reversed replacement. -/
theorem C4_no_return_exit_effects (b : Builder) (st : StepState) (v : Value)
    (lk : Link) (l : List Link) (r : NodeId)
    (hlinks : b.links = l ++ [lk])
    (hv : st.value = some v)
    (hprim : v.isPrimitive = true)
    (hdata : v.data = none)
    (hroot : b.rootNode = some r)
    (hrlen : r < b.heap.length)
    (htlen : lk.target < b.heap.length)
    (hslen : lk.source < b.heap.length)
    (htr : lk.target ≠ r)
    (hts : lk.source ≠ lk.target) :
    ∃ b', exitLink b st lk = Except.ok b' ∧
      (getInfo b'.heap lk.target).status = "failure" ∧
      (getInfo b'.heap r).errorCount = (getInfo b.heap r).errorCount + 1 ∧
      (lk.source ≠ r → (getInfo b'.heap lk.source).status = "warning") ∧
      (lk.source = r → (getInfo b'.heap r).status = "") ∧
      b'.warning = some ⟨"Principle: Referential transparency",
                         "Function does not return a value"⟩ ∧
      b'.links = l ∧ b'.links.length + 1 = b.links.length := by
  have hcond : ((st.doneCallee && (v.isPrimitive && v.data.isSome)) || !v.isPrimitive) = false := by
    simp [hprim, hdata]
  have h1len : (updateInfo b.heap r
      (fun i => { i with errorCount := i.errorCount + 1 })).length = b.heap.length :=
    length_updateInfo _ _ _
  have hE : exitLink b st lk = Except.ok
      { b with
          heap :=
            (if lk.source ≠ r then
              updateInfo (updateInfo (updateInfo b.heap r
                  (fun i => { i with errorCount := i.errorCount + 1 }))
                lk.target (fun i => { i with status := "failure" }))
                lk.source (fun i => { i with status := "warning" })
            else
              updateInfo (updateInfo (updateInfo b.heap r
                  (fun i => { i with errorCount := i.errorCount + 1 }))
                lk.target (fun i => { i with status := "failure" }))
                r (fun i => { i with status := "" })),
          links := b.links.dropLast,
          warning := some ⟨"Principle: Referential transparency",
                           "Function does not return a value"⟩ } := by
    simp [exitLink, hv, hcond, hroot]
  refine ⟨_, hE, ?_, ?_, ?_, ?_, rfl, ?_, ?_⟩
  · by_cases hsr : lk.source = r
    · simp only [hsr, ne_eq, not_true_eq_false, if_false]
      rw [getInfo_updateInfo_ne _ _ _ _ (Ne.symm htr),
        getInfo_updateInfo_eq _ _ _ (by rw [h1len]; exact htlen)]
    · simp only [ne_eq, hsr, not_false_eq_true, if_true]
      rw [getInfo_updateInfo_ne _ _ _ _ hts,
        getInfo_updateInfo_eq _ _ _ (by rw [h1len]; exact htlen)]
  · by_cases hsr : lk.source = r
    · simp only [hsr, ne_eq, not_true_eq_false, if_false]
      rw [getInfo_updateInfo_eq _ _ _
          (by rw [length_updateInfo, h1len]; exact hrlen)]
      show (getInfo _ r).errorCount = _
      rw [getInfo_updateInfo_ne _ _ _ _ htr,
        getInfo_updateInfo_eq _ _ _ hrlen]
    · simp only [ne_eq, hsr, not_false_eq_true, if_true]
      rw [getInfo_updateInfo_ne _ _ _ _ (fun h => hsr h),
        getInfo_updateInfo_ne _ _ _ _ htr,
        getInfo_updateInfo_eq _ _ _ hrlen]
  · intro hsr
    simp only [ne_eq, hsr, not_false_eq_true, if_true]
    rw [getInfo_updateInfo_eq _ _ _
        (by rw [length_updateInfo, h1len]; exact hslen)]
  · intro hsr
    simp only [hsr, ne_eq, not_true_eq_false, if_false]
    rw [getInfo_updateInfo_eq _ _ _
        (by rw [length_updateInfo, h1len]; exact hrlen)]
  · rw [hlinks, List.dropLast_concat]
  · rw [hlinks, List.dropLast_concat]
    simp

/-- C5: a function-exit step that produced a normal value replaces the most
recently added `calling` link by exactly one `returning` link whose source
and target are the original's swapped and whose `linkIndex` is freshly
allocated (strictly greater than every previously assigned index), leaving
the link count unchanged. -/
theorem C5_normal_exit_link_reversal (b : Builder) (st : StepState) (v : Value)
    (lk : Link) (l : List Link)
    (hlinks : b.links = l ++ [lk])
    (_hlkstate : lk.state = "calling")
    (hdc : st.doneCallee = true)
    (hv : st.value = some v)
    (hnormal : (v.isPrimitive = true ∧ v.data.isSome = true) ∨ v.isPrimitive = false)
    (hfresh : ∀ l' ∈ b.links, l'.linkIndex < b.linkIndex) :
    ∃ b', exitLink b st lk = Except.ok b' ∧
      b'.links = ⟨lk.target, lk.source, "returning", b.linkIndex⟩ :: l ∧
      b'.linkIndex = b.linkIndex + 1 ∧
      b'.links.length = b.links.length ∧
      ∀ l' ∈ l, l'.linkIndex < b.linkIndex := by
  have hcond : ((st.doneCallee && (v.isPrimitive && v.data.isSome)) || !v.isPrimitive) = true := by
    rcases hnormal with ⟨h1, h2⟩ | h1
    · simp [hdc, h1, h2]
    · simp [h1]
  have hE : exitLink b st lk = Except.ok
      { b with
          heap := updateInfo b.heap lk.target (fun i => { i with status := "returning" }),
          links := ((⟨lk.target, lk.source, "returning", b.linkIndex⟩ : Link) :: b.links).dropLast,
          linkIndex := b.linkIndex + 1 } := by
    simp [exitLink, hv, hcond, getCallLink]
  refine ⟨_, hE, ?_, rfl, ?_, ?_⟩
  · show ((⟨lk.target, lk.source, "returning", b.linkIndex⟩ : Link) :: b.links).dropLast = _
    rw [hlinks, ← List.cons_append, List.dropLast_concat]
  · show ((⟨lk.target, lk.source, "returning", b.linkIndex⟩ : Link) :: b.links).dropLast.length = _
    simp
  · intro l' hl'
    exact hfresh l' (by rw [hlinks]; exact List.mem_append_left _ hl')

/-- C4 witness: the no-return exit of `a` from `midRunB` (root at id 0,
`a` at id 1, one calling link) shows all the claimed effects at a concrete
input. -/
theorem C4_no_return_exit_effects_witness :
    ∃ b', exitLink midRunB exitABadState ⟨0, 1, "calling", 0⟩ = Except.ok b' ∧
      (getInfo b'.heap 1).status = "failure" ∧
      (getInfo b'.heap 0).errorCount = (getInfo midRunB.heap 0).errorCount + 1 ∧
      ((0 : NodeId) ≠ 0 → (getInfo b'.heap 0).status = "warning") ∧
      ((0 : NodeId) = 0 → (getInfo b'.heap 0).status = "") ∧
      b'.warning = some ⟨"Principle: Referential transparency",
                         "Function does not return a value"⟩ ∧
      b'.links = [] ∧ b'.links.length + 1 = midRunB.links.length := by
  have h := C4_no_return_exit_effects midRunB exitABadState ⟨true, none⟩
    ⟨0, 1, "calling", 0⟩ [] 0 rfl rfl rfl rfl rfl (by decide) (by decide)
    (by decide) (by decide) (by decide)
  exact h

/-- C5 witness: the normal exit of `a` from `midRunB` replaces the calling
link `0 → 1` by the returning link `1 → 0` with the fresh index 1. -/
theorem C5_normal_exit_link_reversal_witness :
    ∃ b', exitLink midRunB exitAOkState ⟨0, 1, "calling", 0⟩ = Except.ok b' ∧
      b'.links = [⟨1, 0, "returning", 1⟩] ∧
      b'.linkIndex = midRunB.linkIndex + 1 ∧
      b'.links.length = midRunB.links.length ∧
      ∀ l' ∈ ([] : List Link), l'.linkIndex < midRunB.linkIndex :=
  C5_normal_exit_link_reversal midRunB exitAOkState ⟨true, some ("5")⟩
    ⟨0, 1, "calling", 0⟩ [] rfl rfl rfl rfl (Or.inl ⟨rfl, rfl⟩)
    (by decide)

/-- Caller frame with `paramIds = ['x']` and resolved `argumentIds = [varA]`. -/
def provenanceCallerInfo : NodeInfo :=
  { aFrameInfo with
      name := "outer",
      paramIds := some ["x"],
      argumentIds := [some ("varA")] }

/-- Builder whose scope-chain top is the provenance caller. -/
def provenanceB : Builder :=
  { midRunB with heap := [rootFrameInfo, provenanceCallerInfo] }

/-- Entry of a nested call `inner(x)` passing the caller's parameter `x`. -/
def enterNestedState : StepState :=
  { dummyState with
      nodeType := "CallExpression",
      callee := some ⟨"Identifier", some ("inner"), none⟩,
      argIds := [some ("x")] }

/-- C6: on a function-entry step whose caller (top of scope chain) has
recorded parameter names, each raw argument identifier equal to one of the
caller's parameter names is replaced in the new node's `argumentIds` by the
caller's own resolved argument identifier at the matching (first) parameter
index; in particular a nested call passing a parameter alias resolves to the
caller's original argument. -/
theorem C6_argument_provenance_substitution (b : Builder) (st : StepState)
    (c : Callee) (nm : String) (cid : NodeId) (callerParams : List String)
    (hsup : isSupportedFunctionCall st = true)
    (hc : st.callee = some c)
    (hnm : calleeNameOf c = Except.ok nm)
    (hcaller : b.scopeChain.getLast? = some cid)
    (hparams : (getInfo b.heap cid).paramIds = some callerParams) :
    ∃ b', addEnteringFunction b st = Except.ok (b', true) ∧
      (getInfo b'.heap b.heap.length).argumentIds =
        substituteArgs callerParams (getInfo b.heap cid).argumentIds st.argIds ∧
      (∀ i s, st.argIds.get? i = some (some s) → s ∈ callerParams →
        (getInfo b'.heap b.heap.length).argumentIds.get? i =
          some ((getInfo b.heap cid).argumentIds.getD (callerParams.indexOf s) none)) := by
  have hargs : ∀ i s, st.argIds.get? i = some (some s) → s ∈ callerParams →
      (substituteArgs callerParams (getInfo b.heap cid).argumentIds st.argIds).get? i =
        some ((getInfo b.heap cid).argumentIds.getD (callerParams.indexOf s) none) := by
    intro i s hi hs
    rw [substituteArgs, List.get?_eq_getElem?, List.getElem?_map, ← List.get?_eq_getElem?, hi]
    simp [List.indexOf_lt_length.mpr hs]
  have key : ∃ b', addEnteringFunction b st = Except.ok (b', true) ∧
      (getInfo b'.heap b.heap.length).argumentIds =
        substituteArgs callerParams (getInfo b.heap cid).argumentIds st.argIds := by
    simp only [addEnteringFunction, hsup, if_true, hc, hnm, hcaller, hparams]
    exact ⟨_, rfl, by rw [getInfo_append_self]⟩
  obtain ⟨b', hE, hheap⟩ := key
  exact ⟨b', hE, hheap, fun i s hi hs => by rw [hheap]; exact hargs i s hi hs⟩

/-- C6 witness: the caller has `paramIds = ['x']` and `argumentIds = [varA]`;
a nested call passing `x` yields `varA`, not `x`, in the nested node's
`argumentIds`. -/
theorem C6_argument_provenance_substitution_witness :
    ∃ b', addEnteringFunction provenanceB enterNestedState = Except.ok (b', true) ∧
      (getInfo b'.heap provenanceB.heap.length).argumentIds =
        substituteArgs ["x"] (getInfo provenanceB.heap 1).argumentIds
          enterNestedState.argIds ∧
      (∀ i s, enterNestedState.argIds.get? i = some (some s) → s ∈ ["x"] →
        (getInfo b'.heap provenanceB.heap.length).argumentIds.get? i =
          some ((getInfo provenanceB.heap 1).argumentIds.getD
            ((["x"] : List String).indexOf s) none)) :=
  C6_argument_provenance_substitution provenanceB enterNestedState
    ⟨"Identifier", some ("inner"), none⟩ "inner" 1 ["x"]
    rfl rfl rfl rfl rfl

/-- The substituted result at the concrete provenance input is `[varA]`. -/
theorem C6_provenance_concrete_value :
    substituteArgs ["x"] (getInfo provenanceB.heap 1).argumentIds
      enterNestedState.argIds = [some ("varA")] := rfl

theorem assignmentClassify_awv (b : Builder) (st : StepState) (u : NodeId)
    (x : JsStr) (bm : Builder)
    (h : assignmentClassify b st u x = Except.ok bm) :
    bm.assignmentWarningVar = b.assignmentWarningVar := by
  rw [assignmentClassify] at h
  split at h
  · split at h
    · exact absurd h (by simp)
    · split at h
      · split at h
        · exact absurd h (by simp)
        · cases Except.ok.inj h; rfl
      · split at h
        · exact absurd h (by simp)
        · cases Except.ok.inj h; rfl
  · cases Except.ok.inj h; rfl

/-- C7: whenever the out-of-scope-mutation check completes on a completed
assignment to a named variable, it reports `updateNeeded = true` exactly when
the assigned name differs from the previous assignment-check's variable, and
it updates the suppression variable to the current name regardless of whether
the check fires; hence two consecutive assignments to the same name yield
`false` on the second, and a following assignment to a different name yields
`true`. -/
theorem C7_assignment_warning_dedup (b : Builder) (st : StepState)
    (u : NodeId) (name : String) (b' : Builder) (r : Bool)
    (hnode : st.nodeType = "AssignmentExpression")
    (hleft : st.doneLeft = true)
    (hright : st.doneRight = true)
    (hname : st.leftName = JsStr.str name)
    (hok : isVariableModifiedOutOfScope b st u = Except.ok (b', r)) :
    (r = true ↔ b.assignmentWarningVar ≠ JsStr.str name) ∧
    b'.assignmentWarningVar = JsStr.str name := by
  rw [isVariableModifiedOutOfScope, hnode, hleft, hright] at hok
  simp only [decide_True, Bool.and_self, if_true] at hok
  rcases hC : assignmentClassify b st u st.leftName with e | bm
  all_goals rw [hC] at hok
  · exact absurd hok (by simp)
  · have hawv := assignmentClassify_awv b st u st.leftName bm hC
    rw [Except.ok.injEq, Prod.mk.injEq] at hok
    obtain ⟨hb', hr⟩ := hok
    constructor
    · rw [← hr, ← hname, hawv]
      simp
    · rw [← hb', hname]

/-- A completed assignment step to the name `b` (declared by the root frame). -/
def assignBState : StepState :=
  { assignZState with leftName := JsStr.str ("b") }

/-- Result of the first assignment check (`z`, locally declared) on `localZB`. -/
def c7MidB : Builder :=
  okFstBuilder (isVariableModifiedOutOfScope localZB assignZState 1)

/-- Result of repeating the same assignment check on `c7MidB`. -/
def c7SecondB : Builder :=
  okFstBuilder (isVariableModifiedOutOfScope c7MidB assignZState 1)

/-- Result of a following assignment check to the different name `b`. -/
def c7ThirdB : Builder :=
  okFstBuilder (isVariableModifiedOutOfScope c7SecondB assignBState 1)

/-- C7 witness: on `localZB` the first assignment to `z` fires
(`updateNeeded = true`), an immediately repeated assignment to `z` does not,
and a following assignment to the different name `b` fires again; the
suppression variable tracks the current name throughout. -/
theorem C7_assignment_warning_dedup_witness :
    ((true = true ↔ localZB.assignmentWarningVar ≠ JsStr.str ("z")) ∧
      c7MidB.assignmentWarningVar = JsStr.str ("z")) ∧
    ((false = true ↔ c7MidB.assignmentWarningVar ≠ JsStr.str ("z")) ∧
      c7SecondB.assignmentWarningVar = JsStr.str ("z")) ∧
    ((true = true ↔ c7SecondB.assignmentWarningVar ≠ JsStr.str ("b")) ∧
      c7ThirdB.assignmentWarningVar = JsStr.str ("b")) :=
  ⟨C7_assignment_warning_dedup localZB assignZState 1 "z" c7MidB true
      rfl rfl rfl rfl rfl,
   C7_assignment_warning_dedup c7MidB assignZState 1 "z" c7SecondB false
      rfl rfl rfl rfl rfl,
   C7_assignment_warning_dedup c7SecondB assignBState 1 "b" c7ThirdB true
      rfl rfl rfl rfl rfl⟩

/-- C8 counterexample: on `pendingExitB` (a node pending its assignment
check) with a completed assignment step to the locally declared `z`, the
unassigned-return check fires first and — contrary to the claim that all
three checks still execute for their side effects — the out-of-scope-mutation
check is skipped: the suppression variable stays `null` (it would become
`"z"`), the current node's status stays `"normal"` (it would become
`"notice"`), and the warning slot keeps the first check's message (the later
check's immutability warning never overwrites it). -/
theorem C8_counterexample_short_circuit :
    (updateEnteringFunction pendingExitB assignZState).map
      (fun p => (p.2, p.1.assignmentWarningVar, (getInfo p.1.heap 1).status,
p.1.warning)) =
    Except.ok (true, JsStr.nullv, "normal",
      some ⟨"Principle: Side effects", "Function result is not assigned to a value"⟩) := by
  rfl

/-- C8 amended: the three checks are combined with short-circuiting `||`: a
later check runs (and has side effects) only when every earlier check
returned false.  In particular, when the unassigned-return check fires, the
out-of-scope-mutation and display-name checks do not run: the suppression
variable, every node's display args and display name are unchanged, and the
warning slot holds the unassigned-return message. -/
theorem C8_checks_short_circuit_amended (b : Builder) (st : StepState)
    (u e c r : NodeId)
    (hchain : b.scopeChain.getLast? = some u)
    (hscope : st.scope = none)
    (hfunc : st.func = none)
    (hexit : b.exitingNode = some e)
    (hdecl : st.nodeType ≠ "VariableDeclarator")
    (hcaller : (getInfo b.heap e).callerNode = some c)
    (hroot : b.rootNode = some r) :
    ∃ b', updateEnteringFunction b st = Except.ok (b', true) ∧
      b'.assignmentWarningVar = b.assignmentWarningVar ∧
      (∀ j, (getInfo b'.heap j).displayArgs = (getInfo b.heap j).displayArgs) ∧
      (∀ j, (getInfo b'.heap j).displayName = (getInfo b.heap j).displayName) ∧
      b'.warning = some ⟨"Principle: Side effects",
                         "Function result is not assigned to a value"⟩ := by
  have hne : b.scopeChain ≠ [] := by
    intro h
    rw [h] at hchain
    exact Option.noConfusion hchain
  have hlen : b.scopeChain.length ≠ 0 := by
    simpa [List.length_eq_zero] using hne
  have key : updateEnteringFunction b st = Except.ok
      ({ b with
          heap := updateInfo
            (updateInfo b.heap c (fun i => { i with status := "warning" })) r
            (fun i => { i with errorCount := i.errorCount + 1 }),
          warning := some ⟨"Principle: Side effects",
                           "Function result is not assigned to a value"⟩,
          exitingNode := none }, true) := by
    simp [updateEnteringFunction, getVariablesInScope, updateParamsIdsFromCaller,
      isFunctionReturnUnassigned, hchain, hscope, hfunc, hexit, hcaller, hroot,
      hlen, hdecl]
  refine ⟨_, key, rfl, ?_, ?_, rfl⟩
  · intro j
    exact (getInfo_updateInfo_proj (fun i => i.displayArgs)
        (fun i => { i with errorCount := i.errorCount + 1 }) (fun _ => rfl) _ r j).trans
      (getInfo_updateInfo_proj (fun i => i.displayArgs)
        (fun i => { i with status := "warning" }) (fun _ => rfl) b.heap c j)
  · intro j
    exact (getInfo_updateInfo_proj (fun i => i.displayName)
        (fun i => { i with errorCount := i.errorCount + 1 }) (fun _ => rfl) _ r j).trans
      (getInfo_updateInfo_proj (fun i => i.displayName)
        (fun i => { i with status := "warning" }) (fun _ => rfl) b.heap c j)

/-- C8 amended witness: at `pendingExitB` with the assignment step, the
unassigned-return check fires and the later checks leave no side effects. -/
theorem C8_checks_short_circuit_amended_witness :
    ∃ b', updateEnteringFunction pendingExitB assignZState = Except.ok (b', true) ∧
      b'.assignmentWarningVar = pendingExitB.assignmentWarningVar ∧
      (∀ j, (getInfo b'.heap j).displayArgs = (getInfo pendingExitB.heap j).displayArgs) ∧
      (∀ j, (getInfo b'.heap j).displayName = (getInfo pendingExitB.heap j).displayName) ∧
      b'.warning = some ⟨"Principle: Side effects",
                         "Function result is not assigned to a value"⟩ :=
  C8_checks_short_circuit_amended pendingExitB assignZState 1 1 0 0
    rfl rfl rfl rfl (by decide) rfl rfl

/-- C2 amended: the relation `links.length = nodes.length − 1` is preserved
by the entry handler (which links every non-first node to its caller), by a
value-producing exit (`exitLink` replaces the popped link, `exitNode` moves a
node without changing the count), and by eviction; but a processed no-return
exit removes the last link without replacement, leaving the node count
unchanged, so the relation fails after it (the count drops to
`nodes.length − 2`). -/
theorem C2_link_node_count_amended :
    (∀ b st b', (b.nodes = [] → b.scopeChain = [] ∧ b.links = []) →
       (b.nodes ≠ [] → b.scopeChain ≠ [] ∧ b.links.length + 1 = b.nodes.length) →
       addEnteringFunction b st = Except.ok (b', true) →
       b'.links.length + 1 = b'.nodes.length) ∧
    (∀ b st v lk b', st.value = some v →
       ((st.doneCallee && (v.isPrimitive && v.data.isSome)) || !v.isPrimitive) = true →
       exitLink b st lk = Except.ok b' →
       b'.links.length = b.links.length ∧ b'.nodes = b.nodes) ∧
    (∀ b st v lk b', st.value = some v →
       ((st.doneCallee && (v.isPrimitive && v.data.isSome)) || !v.isPrimitive) = false →
       b.links ≠ [] →
       exitLink b st lk = Except.ok b' →
       b'.links.length + 1 = b.links.length ∧ b'.nodes = b.nodes) ∧
    (∀ b st b' e, b.exitingNode = some e → b.nodes ≠ [] →
       exitNode b st = Except.ok b' →
       b'.nodes.length = b.nodes.length ∧ b'.links = b.links) ∧
    (∀ b m, m < b.rootNodeIndex → b.rootNodeIndex ≤ b.links.length →
       b.links.length + 1 = b.nodes.length →
       (removeOldestReturned b m).links.length + 1 =
         (removeOldestReturned b m).nodes.length) := by
  refine ⟨?_, ?_, ?_, ?_, ?_⟩
  · intro b st b' H0 H1 hadd
    rcases hchain : b.scopeChain.getLast? with _ | g
    · simp only [addEnteringFunction, hchain] at hadd
      split at hadd
      · split at hadd
        · exact absurd hadd (by simp)
        · split at hadd
          · exact absurd hadd (by simp)
          · rw [Except.ok.injEq, Prod.mk.injEq] at hadd
            rw [← hadd.1]
            simp only [getCallLink]
            rcases hbn : b.nodes with _ | ⟨x, xs⟩
            · simp [(H0 hbn).2]
            · have := (H1 (by rw [hbn]; simp)).1
              exact absurd (List.getLast?_eq_none_iff.mp hchain) this
      · exact absurd hadd (by simp)
    · have hne : b.nodes ≠ [] := by
        intro hbn
        rw [(H0 hbn).1] at hchain
        exact Option.noConfusion hchain
      simp only [addEnteringFunction, hchain] at hadd
      split at hadd
      · split at hadd
        · exact absurd hadd (by simp)
        · split at hadd
          · exact absurd hadd (by simp)
          · rw [Except.ok.injEq, Prod.mk.injEq] at hadd
            rw [← hadd.1]
            simp only [getCallLink]
            simp [(H1 hne).2]
      · exact absurd hadd (by simp)
  · intro b st v lk b' hv hcond hok
    simp only [exitLink, hv, hcond, if_true, getCallLink] at hok
    rw [Except.ok.injEq] at hok
    rw [← hok]
    constructor
    · simp
    · rfl
  · intro b st v lk b' hv hcond hlinks hok
    simp only [exitLink, hv, hcond, Bool.false_eq_true, if_false] at hok
    rcases hroot : b.rootNode with _ | r
    all_goals rw [hroot] at hok
    · exact absurd hok (by simp)
    · rw [Except.ok.injEq] at hok
      rw [← hok]
      constructor
      · have : b.links.length ≠ 0 := by
          simpa [List.length_eq_zero] using hlinks
        simp only [List.length_dropLast]
        omega
      · rfl
  · intro b st b' e hexit hnodes hok
    simp only [exitNode, hexit] at hok
    rw [Except.ok.injEq] at hok
    rw [← hok]
    constructor
    · have : b.nodes.length ≠ 0 := by
        simpa [List.length_eq_zero] using hnodes
      simp only [List.length_cons, List.length_dropLast]
      omega
    · rfl
  · intro b m hm hrl hln
    have h1 : 1 < b.nodes.length := by omega
    simp only [removeOldestReturned, jsSplice, h1, if_pos, List.length_append,
      List.length_take, List.length_drop]
    omega

/-- Builder after the first entry on a fresh builder. -/
def entryResultB : Builder :=
  okFstBuilder (addEnteringFunction initialBuilder enterProgramState)

/-- Builder after a value-producing `exitLink` on `midRunB`. -/
def normalExitLinkB : Builder :=
  okBuilder (exitLink midRunB exitAOkState ⟨0, 1, "calling", 0⟩)

/-- Builder after a no-return `exitLink` on `midRunB`. -/
def brokenExitLinkB : Builder :=
  okBuilder (exitLink midRunB exitABadState ⟨0, 1, "calling", 0⟩)

/-- Builder after `exitNode` on `pendingExitB`. -/
def exitNodeResB : Builder :=
  okBuilder (exitNode pendingExitB dummyState)

/-- Builder with one retained returned node, ready for eviction. -/
def evictReadyB : Builder :=
  { midRunB with
      nodes := [2, 0, 1],
      links := [⟨2, 0, "returning", 1⟩, ⟨0, 1, "calling", 0⟩],
      rootNodeIndex := 1 }

/-- C2 amended witness: each handler fact at a concrete input — the first
entry establishes the relation, a value-producing `exitLink` and `exitNode`
preserve the counts, a no-return `exitLink` drops one link, and eviction with
`maxAllowedReturnNodes = 0` preserves the relation. -/
theorem C2_link_node_count_amended_witness :
    (entryResultB.links.length + 1 = entryResultB.nodes.length) ∧
    (normalExitLinkB.links.length = midRunB.links.length ∧
      normalExitLinkB.nodes = midRunB.nodes) ∧
    (brokenExitLinkB.links.length + 1 = midRunB.links.length ∧
      brokenExitLinkB.nodes = midRunB.nodes) ∧
    (exitNodeResB.nodes.length = pendingExitB.nodes.length ∧
      exitNodeResB.links = pendingExitB.links) ∧
    ((removeOldestReturned evictReadyB 0).links.length + 1 =
      (removeOldestReturned evictReadyB 0).nodes.length) :=
  ⟨C2_link_node_count_amended.1 initialBuilder enterProgramState entryResultB
      (fun _ => ⟨rfl, rfl⟩) (fun h => absurd rfl h) rfl,
   C2_link_node_count_amended.2.1 midRunB exitAOkState ⟨true, some ("5")⟩
      ⟨0, 1, "calling", 0⟩ normalExitLinkB rfl rfl rfl,
   C2_link_node_count_amended.2.2.1 midRunB exitABadState ⟨true, none⟩
      ⟨0, 1, "calling", 0⟩ brokenExitLinkB rfl rfl (by decide) rfl,
   C2_link_node_count_amended.2.2.2.1 pendingExitB dummyState exitNodeResB 1
      rfl (by decide) rfl,
   C2_link_node_count_amended.2.2.2.2 evictReadyB 0 (by decide) (by decide)
      (by decide)⟩

theorem getInfo_updateInfo (h : List NodeInfo) (i : NodeId) (f : NodeInfo → NodeInfo)
    (j : NodeId) :
    getInfo (updateInfo h i f) j =
      if i = j ∧ i < h.length then f (getInfo h i) else getInfo h j := by
  by_cases hij : i = j
  · subst hij
    by_cases hi : i < h.length
    · rw [getInfo_updateInfo_eq h i f hi]
      simp [hi]
    · rw [updateInfo, List.set_eq_of_length_le (Nat.le_of_not_lt hi)]
      simp [hi]
  · rw [getInfo_updateInfo_ne h i j f hij]
    simp [hij]

/-- The reachable-state invariant backing root uniqueness: the heap records
every node ever created in entry order, so node 0 is the unique root; the
node list decomposes into the retained returned prefix (length
`rootNodeIndex`) followed by the root and the still-live nodes. -/
structure BuilderInv (b : Builder) : Prop where
  empty_heap : b.heap.length = 0 →
    b.nodes = [] ∧ b.rootNode = none ∧ b.rootNodeIndex = 0
  root_id : b.heap.length ≠ 0 → b.rootNode = some 0
  types : ∀ i, i < b.heap.length →
    (getInfo b.heap i).type = if i = 0 then "root" else "function"
  decomp : b.heap.length ≠ 0 →
    ∃ R L, b.nodes = R ++ 0 :: L ∧ R.length = b.rootNodeIndex

theorem builderInv_congr (b b' : Builder) (h : BuilderInv b)
    (hheap : b'.heap = b.heap) (hnodes : b'.nodes = b.nodes)
    (hroot : b'.rootNode = b.rootNode) (hrni : b'.rootNodeIndex = b.rootNodeIndex) :
    BuilderInv b' := by
  refine ⟨?_, ?_, ?_, ?_⟩ <;> rw [hheap]
  · rw [hnodes, hroot, hrni]; exact h.empty_heap
  · rw [hroot]; exact h.root_id
  · exact h.types
  · rw [hnodes, hrni]; exact h.decomp

theorem builderInv_of_frame (b b' : Builder) (h : BuilderInv b)
    (hlen : b'.heap.length = b.heap.length)
    (htypes : ∀ j, (getInfo b'.heap j).type = (getInfo b.heap j).type)
    (hnodes : b'.nodes = b.nodes)
    (hroot : b'.rootNode = b.rootNode) (hrni : b'.rootNodeIndex = b.rootNodeIndex) :
    BuilderInv b' := by
  refine ⟨?_, ?_, ?_, ?_⟩ <;> rw [hlen]
  · rw [hnodes, hroot, hrni]; exact h.empty_heap
  · rw [hroot]; exact h.root_id
  · intro i hi
    rw [htypes]
    exact h.types i hi
  · rw [hnodes, hrni]; exact h.decomp

/-- Frame of the analyzer path: heap length and every node's `type`,
together with the node list, links, scope chain, root reference and root
index, are untouched. -/
def UpdFrame (b b' : Builder) : Prop :=
  b'.heap.length = b.heap.length ∧
  (∀ j, (getInfo b'.heap j).type = (getInfo b.heap j).type) ∧
  b'.nodes = b.nodes ∧ b'.links = b.links ∧ b'.scopeChain = b.scopeChain ∧
  b'.rootNode = b.rootNode ∧ b'.rootNodeIndex = b.rootNodeIndex

theorem updFrame_refl (b : Builder) : UpdFrame b b :=
  ⟨rfl, fun _ => rfl, rfl, rfl, rfl, rfl, rfl⟩

theorem updFrame_trans (b1 b2 b3 : Builder) (h1 : UpdFrame b1 b2)
    (h2 : UpdFrame b2 b3) : UpdFrame b1 b3 :=
  ⟨h2.1.trans h1.1, fun j => (h2.2.1 j).trans (h1.2.1 j),
   h2.2.2.1.trans h1.2.2.1, h2.2.2.2.1.trans h1.2.2.2.1,
   h2.2.2.2.2.1.trans h1.2.2.2.2.1, h2.2.2.2.2.2.1.trans h1.2.2.2.2.2.1,
   h2.2.2.2.2.2.2.trans h1.2.2.2.2.2.2⟩

theorem updFrame_getVariablesInScope (b : Builder) (st : StepState)
    (un : Option NodeId) : UpdFrame b (getVariablesInScope b st un) := by
  rw [getVariablesInScope]
  split
  · split
    · refine ⟨?_, ?_, rfl, rfl, rfl, rfl, rfl⟩
      · dsimp only
        simp [length_updateInfo]
      · intro j
        dsimp only
        simp only [getInfo_updateInfo, length_updateInfo]
        split_ifs <;> simp_all
    · exact updFrame_refl _
  · exact updFrame_refl _

theorem updFrame_updateParamsIdsFromCaller (b : Builder) (st : StepState)
    (un : Option NodeId) (b' : Builder)
    (h : updateParamsIdsFromCaller b st un = Except.ok b') : UpdFrame b b' := by
  rw [updateParamsIdsFromCaller] at h
  split at h
  · split at h
    · split at h
      · cases Except.ok.inj h
        refine ⟨?_, ?_, rfl, rfl, rfl, rfl, rfl⟩
        · dsimp only
          simp [length_updateInfo]
        · intro j
          dsimp only
          simp only [getInfo_updateInfo, length_updateInfo]
          split_ifs <;> simp_all
      · exact absurd h (by simp)
    · cases Except.ok.inj h
      exact updFrame_refl _
  · cases Except.ok.inj h
    exact updFrame_refl _

theorem updFrame_isFunctionReturnUnassigned (b : Builder) (st : StepState)
    (u : NodeId) (b' : Builder) (r : Bool)
    (h : isFunctionReturnUnassigned b st u = Except.ok (b', r)) : UpdFrame b b' := by
  rw [isFunctionReturnUnassigned] at h
  split at h
  · split at h
    · split at h
      · exact absurd h (by simp)
      · split at h
        · exact absurd h (by simp)
        · rw [Except.ok.injEq, Prod.mk.injEq] at h
          rw [← h.1]
          refine ⟨?_, ?_, rfl, rfl, rfl, rfl, rfl⟩
          · dsimp only
            simp [length_updateInfo]
          · intro j
            dsimp only
            simp only [getInfo_updateInfo, length_updateInfo]
            split_ifs <;> simp_all
    · rw [Except.ok.injEq, Prod.mk.injEq] at h
      rw [← h.1]
      exact updFrame_refl _
  · rw [Except.ok.injEq, Prod.mk.injEq] at h
    rw [← h.1]
    exact updFrame_refl _

theorem updFrame_assignmentClassify (b : Builder) (st : StepState)
    (u : NodeId) (x : JsStr) (b' : Builder)
    (h : assignmentClassify b st u x = Except.ok b') : UpdFrame b b' := by
  rw [assignmentClassify] at h
  split at h
  · split at h
    · exact absurd h (by simp)
    · split at h
      · split at h
        · exact absurd h (by simp)
        · cases Except.ok.inj h
          refine ⟨?_, ?_, rfl, rfl, rfl, rfl, rfl⟩
          · dsimp only
            simp [length_updateInfo]
          · intro j
            dsimp only
            simp only [getInfo_updateInfo, length_updateInfo]
            split_ifs <;> simp_all
      · split at h
        · exact absurd h (by simp)
        · cases Except.ok.inj h
          refine ⟨?_, ?_, rfl, rfl, rfl, rfl, rfl⟩
          · dsimp only
            simp [length_updateInfo]
          · intro j
            dsimp only
            simp only [getInfo_updateInfo, length_updateInfo]
            split_ifs <;> simp_all
  · cases Except.ok.inj h
    refine ⟨?_, ?_, rfl, rfl, rfl, rfl, rfl⟩
    · dsimp only
      simp [length_updateInfo]
    · intro j
      dsimp only
      simp only [getInfo_updateInfo, length_updateInfo]
      split_ifs <;> simp_all

theorem updFrame_isVariableModifiedOutOfScope (b : Builder) (st : StepState)
    (u : NodeId) (b' : Builder) (r : Bool)
    (h : isVariableModifiedOutOfScope b st u = Except.ok (b', r)) : UpdFrame b b' := by
  rw [isVariableModifiedOutOfScope] at h
  split at h
  · dsimp only at h
    rcases hC : assignmentClassify b st u st.leftName with e | bm
    all_goals rw [hC] at h
    · exact absurd h (by simp)
    · rw [Except.ok.injEq, Prod.mk.injEq] at h
      rw [← h.1]
      exact updFrame_assignmentClassify b st u st.leftName bm hC
  · rw [Except.ok.injEq, Prod.mk.injEq] at h
    rw [← h.1]
    exact updFrame_refl _

theorem updFrame_doesDisplayNameNeedUpdating (b : Builder) (st : StepState)
    (u : NodeId) (b' : Builder) (r : Bool)
    (h : doesDisplayNameNeedUpdating b st u = Except.ok (b', r)) : UpdFrame b b' := by
  rw [doesDisplayNameNeedUpdating] at h
  split at h
  · split at h
    · exact absurd h (by simp)
    · rename_i b1 heq
      have hf1 : UpdFrame b b1 := by
        split at heq
        · dsimp only at heq
          split at heq
          · exact absurd heq (by simp)
          · cases Except.ok.inj heq
            exact ⟨rfl, fun _ => rfl, rfl, rfl, rfl, rfl, rfl⟩
        · cases Except.ok.inj heq
          exact updFrame_refl _
      dsimp only at h
      split at h
      · rw [Except.ok.injEq, Prod.mk.injEq] at h
        rw [← h.1]
        refine updFrame_trans _ _ _ hf1 ⟨?_, ?_, rfl, rfl, rfl, rfl, rfl⟩
        · dsimp only
          simp [length_updateInfo]
        · intro j
          dsimp only
          simp only [getInfo_updateInfo, length_updateInfo]
          split_ifs <;> simp_all
      · rw [Except.ok.injEq, Prod.mk.injEq] at h
        rw [← h.1]
        exact hf1
  · rw [Except.ok.injEq, Prod.mk.injEq] at h
    rw [← h.1]
    exact updFrame_refl _

theorem updFrame_updateEnteringFunction (b : Builder) (st : StepState)
    (b' : Builder) (r : Bool)
    (h : updateEnteringFunction b st = Except.ok (b', r)) : UpdFrame b b' := by
  rw [updateEnteringFunction] at h
  rcases hUN : (if b.scopeChain.length ≠ 0 then b.scopeChain.getLast? else none)
      with _ | u
  all_goals rw [hUN] at h
  · rcases hP : updateParamsIdsFromCaller (getVariablesInScope b st none) st none
        with e | b1
    all_goals rw [hP] at h
    · exact absurd h (by simp)
    · have hf1 := updFrame_trans _ _ _
        (updFrame_getVariablesInScope b st none)
        (updFrame_updateParamsIdsFromCaller _ st none b1 hP)
      rw [Except.ok.injEq, Prod.mk.injEq] at h
      rw [← h.1]
      exact hf1
  · rcases hP : updateParamsIdsFromCaller (getVariablesInScope b st (some u)) st
        (some u) with e | b1
    all_goals rw [hP] at h
    · exact absurd h (by simp)
    · have hf1 := updFrame_trans _ _ _
        (updFrame_getVariablesInScope b st (some u))
        (updFrame_updateParamsIdsFromCaller _ st (some u) b1 hP)
      dsimp only at h
      rcases h1 : isFunctionReturnUnassigned b1 st u with e | ⟨b2, r1⟩
      all_goals rw [h1] at h
      · exact absurd h (by simp)
      · have hf2 := updFrame_trans _ _ _ hf1
          (updFrame_isFunctionReturnUnassigned b1 st u b2 r1 h1)
        dsimp only at h
        split at h
        · rw [Except.ok.injEq, Prod.mk.injEq] at h
          rw [← h.1]
          exact hf2
        · rcases h2 : isVariableModifiedOutOfScope b2 st u with e | ⟨b3, r2⟩
          all_goals rw [h2] at h
          · exact absurd h (by simp)
          · have hf3 := updFrame_trans _ _ _ hf2
              (updFrame_isVariableModifiedOutOfScope b2 st u b3 r2 h2)
            dsimp only at h
            split at h
            · rw [Except.ok.injEq, Prod.mk.injEq] at h
              rw [← h.1]
              exact hf3
            · exact updFrame_trans _ _ _ hf3
                (updFrame_doesDisplayNameNeedUpdating b3 st u b' r h)

theorem type_statusSet (s : String) (hp : List NodeInfo) (i j : NodeId) :
    (getInfo (updateInfo hp i (fun x => { x with status := s })) j).type =
      (getInfo hp j).type := by
  rw [getInfo_updateInfo]
  split_ifs with h
  · obtain ⟨rfl, -⟩ := h
    rfl
  · rfl

theorem type_errInc (hp : List NodeInfo) (i j : NodeId) :
    (getInfo (updateInfo hp i
      (fun x => { x with errorCount := x.errorCount + 1 })) j).type =
      (getInfo hp j).type := by
  rw [getInfo_updateInfo]
  split_ifs with h
  · obtain ⟨rfl, -⟩ := h
    rfl
  · rfl

set_option maxRecDepth 4096 in
theorem exitLink_frame (b : Builder) (st : StepState) (lk : Link) (b' : Builder)
    (h : exitLink b st lk = Except.ok b') :
    b'.heap.length = b.heap.length ∧
    (∀ j, (getInfo b'.heap j).type = (getInfo b.heap j).type) ∧
    b'.nodes = b.nodes ∧ b'.scopeChain = b.scopeChain ∧
    b'.rootNode = b.rootNode ∧ b'.rootNodeIndex = b.rootNodeIndex := by
  rw [exitLink] at h
  split at h
  · exact absurd h (by simp)
  · split at h
    · split at h
      · cases Except.ok.inj h
        refine ⟨?_, ?_, rfl, rfl, rfl, rfl⟩
        · dsimp only
          simp [length_updateInfo]
        · intro j
          dsimp only
          simp only [getInfo_updateInfo, length_updateInfo]
          split_ifs <;> simp_all
      · rename_i heq
        exact absurd heq (by simp [getCallLink])
    · split at h
      · exact absurd h (by simp)
      · dsimp only at h
        cases Except.ok.inj h
        clear h
        refine ⟨?_, ?_, rfl, rfl, rfl, rfl⟩
        · dsimp only
          split_ifs <;> simp [length_updateInfo]
        · intro j
          dsimp only
          split_ifs <;> rw [type_statusSet, type_statusSet, type_errInc]

theorem exitNode_shape (b : Builder) (st : StepState) (b' : Builder)
    (h : exitNode b st = Except.ok b') :
    ∃ e, b.exitingNode = some e ∧
      b'.heap.length = b.heap.length ∧
      (∀ j, (getInfo b'.heap j).type = (getInfo b.heap j).type) ∧
      b'.nodes = e :: b.nodes.dropLast ∧
      b'.rootNode = b.rootNode ∧
      b'.rootNodeIndex = b.rootNodeIndex + 1 := by
  rw [exitNode] at h
  split at h
  · exact absurd h (by simp)
  · rename_i e heq
    cases Except.ok.inj h
    refine ⟨e, heq, ?_, ?_, rfl, rfl, rfl⟩
    · dsimp only
      simp [length_updateInfo]
    · intro j
      dsimp only
      simp only [getInfo_updateInfo, length_updateInfo]
      split_ifs <;> simp_all

theorem builderInv_exitNode (b : Builder) (st : StepState) (b' : Builder)
    (hInv : BuilderInv b) (hlen : b.heap.length ≠ 0)
    (hdepth : b.rootNodeIndex + 2 ≤ b.nodes.length)
    (h : exitNode b st = Except.ok b') : BuilderInv b' := by
  obtain ⟨e, _, hl, ht, hn, hr, hi⟩ := exitNode_shape b st b' h
  obtain ⟨R, L, hdec, hR⟩ := hInv.decomp hlen
  have hLne : L ≠ [] := by
    intro hL
    rw [hdec, hL] at hdepth
    simp only [List.length_append, List.length_cons, List.length_nil] at hdepth
    omega
  refine ⟨?_, ?_, ?_, ?_⟩
  · intro hcon
    rw [hl] at hcon
    exact absurd hcon hlen
  · intro _
    rw [hr]
    exact hInv.root_id hlen
  · intro i hi2
    rw [hl] at hi2
    rw [ht i]
    exact hInv.types i hi2
  · intro _
    refine ⟨e :: R, L.dropLast, ?_, ?_⟩
    · have hcons : (0 :: L).dropLast = 0 :: L.dropLast := by
        rw [← List.singleton_append, List.dropLast_append_of_ne_nil _ hLne]
        rfl
      rw [hn, hdec,
        List.dropLast_append_of_ne_nil _ (List.cons_ne_nil 0 L), hcons]
      simp
    · rw [hi]
      simp [hR]

theorem builderInv_removeOldestReturned (b : Builder) (m : Nat)
    (hInv : BuilderInv b) (hlen : b.heap.length ≠ 0)
    (hm : m < b.rootNodeIndex) : BuilderInv (removeOldestReturned b m) := by
  obtain ⟨R, L, hdec, hR⟩ := hInv.decomp hlen
  have hmle : m ≤ b.rootNodeIndex := Nat.le_of_lt hm
  have hmR : m ≤ R.length := by omega
  refine ⟨?_, ?_, ?_, ?_⟩
  · intro hcon
    exact absurd hcon hlen
  · intro _
    exact hInv.root_id hlen
  · intro i hi2
    exact hInv.types i hi2
  · intro _
    refine ⟨R.take m, L, ?_, ?_⟩
    · show jsSplice b.nodes (b.rootNodeIndex - (b.rootNodeIndex - m))
        (b.rootNodeIndex - m) = R.take m ++ 0 :: L
      rw [Nat.sub_sub_self hmle, jsSplice, Nat.add_sub_cancel' hmle, hdec, ← hR,
        List.take_append_eq_append_take, List.drop_append_eq_append_drop]
      simp [Nat.sub_eq_zero_of_le hmR, List.drop_length]
    · show (R.take m).length = b.rootNodeIndex - (b.rootNodeIndex - m)
      rw [List.length_take]
      omega

theorem builderInv_removeExitingFunction (b : Builder) (st : StepState) (m : Nat)
    (b' : Builder) (r : Bool) (hInv : BuilderInv b)
    (hdepth : isSupportedReturnToCaller st = true → exitGuardPasses b st = true →
      b.links ≠ [] → b.rootNodeIndex + 2 ≤ b.nodes.length)
    (h : removeExitingFunction b st m = Except.ok (b', r)) : BuilderInv b' := by
  rw [removeExitingFunction] at h
  split at h
  · rename_i hret
    split at h
    · exact absurd h (by simp)
    · rename_i root hroot
      have hlen : b.heap.length ≠ 0 := by
        intro hl
        rw [(hInv.empty_heap hl).2.1] at hroot
        exact Option.noConfusion hroot
      split at h
      · exact absurd h (by simp)
      · rename_i notRoot hguard
        split at h
        · rename_i hNR
          split at h
          · exact absurd h (by simp)
          · rename_i bmid hmid
            have hguardp : exitGuardPasses b st = true := by
              simp only [exitGuardPasses, hroot, hguard]
              exact hNR
            have hInv2 : BuilderInv bmid ∧ bmid.heap.length ≠ 0 := by
              split at hmid
              · rename_i lk hlk
                have hlinksne : b.links ≠ [] := by
                  intro hl
                  rw [hl] at hlk
                  exact Option.noConfusion hlk
                rcases hEL : exitLink b st lk with e | b1
                all_goals rw [hEL] at hmid
                · exact absurd hmid (by simp)
                · obtain ⟨f1, f2, f3, f4, f5, f6⟩ := exitLink_frame b st lk b1 hEL
                  have hInv1 : BuilderInv
                      { b1 with exitingNode := b1.scopeChain.getLast? } :=
                    builderInv_of_frame b _ hInv f1 f2 f3 f5 f6
                  obtain ⟨e2, _, g1, _, _, _, _⟩ := exitNode_shape _ st bmid hmid
                  refine ⟨builderInv_exitNode _ st bmid hInv1
                      (by simpa [f1] using hlen)
                      (by dsimp only; rw [f6, f3]; exact hdepth hret hguardp hlinksne)
                      hmid, ?_⟩
                  rw [g1]
                  dsimp only
                  simpa [f1] using hlen
              · cases Except.ok.inj hmid
                exact ⟨hInv, hlen⟩
            obtain ⟨hI, hL⟩ := hInv2
            have hI3 : BuilderInv { bmid with assignmentWarningVar := JsStr.nullv } :=
              builderInv_congr bmid _ hI rfl rfl rfl rfl
            dsimp only at h
            rw [Except.ok.injEq, Prod.mk.injEq] at h
            rw [← h.1]
            split_ifs with hev
            · exact builderInv_removeOldestReturned _ m hI3 hL hev
            · exact hI3
        · rw [Except.ok.injEq, Prod.mk.injEq] at h
          rw [← h.1]
          exact hInv
  · rw [Except.ok.injEq, Prod.mk.injEq] at h
    rw [← h.1]
    exact hInv

theorem add_ok_false (b : Builder) (st : StepState) (b' : Builder)
    (h : addEnteringFunction b st = Except.ok (b', false)) :
    b' = b ∧ isSupportedFunctionCall st = false := by
  rw [addEnteringFunction] at h
  split at h
  · rename_i hsup
    split at h
    · exact absurd h (by simp)
    · split at h
      · exact absurd h (by simp)
      · rw [Except.ok.injEq, Prod.mk.injEq] at h
        exact absurd h.2 (by simp)
  · rename_i hsup
    rw [Except.ok.injEq, Prod.mk.injEq] at h
    exact ⟨h.1.symm, Bool.not_eq_true _ ▸ hsup⟩

theorem remove_ok_false (b : Builder) (st : StepState) (m : Nat) (b' : Builder)
    (h : removeExitingFunction b st m = Except.ok (b', false)) : b' = b := by
  rw [removeExitingFunction] at h
  split at h
  · split at h
    · exact absurd h (by simp)
    · split at h
      · exact absurd h (by simp)
      · split at h
        · split at h
          · exact absurd h (by simp)
          · rw [Except.ok.injEq, Prod.mk.injEq] at h
            exact absurd h.2 (by simp)
        · rw [Except.ok.injEq, Prod.mk.injEq] at h
          exact h.1.symm
  · rw [Except.ok.injEq, Prod.mk.injEq] at h
    exact h.1.symm

theorem builderInv_addEnteringFunction (b : Builder) (st : StepState)
    (b' : Builder) (r : Bool) (hInv : BuilderInv b)
    (h : addEnteringFunction b st = Except.ok (b', r)) : BuilderInv b' := by
  rw [addEnteringFunction] at h
  split at h
  · split at h
    · exact absurd h (by simp)
    · split at h
      · exact absurd h (by simp)
      · rw [Except.ok.injEq, Prod.mk.injEq] at h
        rw [← h.1]
        by_cases hlen : b.heap.length = 0
        · obtain ⟨hn, hr, hi⟩ := hInv.empty_heap hlen
          have hb : b.heap = [] := List.length_eq_zero.mp hlen
          refine ⟨?_, ?_, ?_, ?_⟩
          · intro hcon
            dsimp only at hcon
            simp at hcon
          · intro _
            dsimp only
            rw [hn]
            simp [hlen, hb]
          · intro i hi2
            rw [List.length_append, hb] at hi2
            simp only [List.length_nil, List.length_cons, Nat.zero_add] at hi2
            interval_cases i
            dsimp only
            rw [hb]
            simp [getInfo, List.getD, hn]
          · intro _
            dsimp only
            refine ⟨[], [], ?_, ?_⟩
            · rw [hn, hb]
              simp
            · simpa using hi.symm
        · have hroot := hInv.root_id hlen
          obtain ⟨R, L, hdec, hR⟩ := hInv.decomp hlen
          have hnne : b.nodes.length ≠ 0 := by
            rw [hdec]
            simp
          refine ⟨?_, ?_, ?_, ?_⟩
          · intro hcon
            dsimp only at hcon
            simp at hcon
          · intro _
            dsimp only
            simp only [hnne, if_false]
            exact hroot
          · intro i hi2
            rw [List.length_append, List.length_singleton] at hi2
            rcases Nat.lt_succ_iff_lt_or_eq.mp hi2 with hi3 | hi3
            · dsimp only
              rw [getInfo_append_lt _ _ _ hi3]
              exact hInv.types i hi3
            · subst hi3
              dsimp only
              rw [getInfo_append_self]
              simp only [hnne, if_false]
              simp [hlen]
          · intro _
            dsimp only
            refine ⟨R, L ++ [b.heap.length], ?_, hR⟩
            rw [hdec]
            simp
  · rw [Except.ok.injEq, Prod.mk.injEq] at h
    rw [← h.1]
    exact hInv

theorem wfStep_some (b : Builder) (st pv : StepState)
    (hpv : b.prevState = some pv) : wfStep b (some st) = wfStepBody b st := by
  unfold wfStep
  split
  · rename_i st2 pv2 hst hpv2
    cases Option.some.inj hst
    rfl
  · rename_i hno
    exact ((hno st pv rfl hpv).elim : _)

theorem action_some (b : Builder) (st pv : StepState) (m : Nat)
    (hpv : b.prevState = some pv) :
    action b (some st) m =
      actionCore { b with warning := none, state := some st } st m := by
  unfold action
  dsimp only
  split
  · rename_i st2 pv2 hst hpv2
    cases Option.some.inj hst
    rfl
  · rename_i hno
    exact ((hno st pv rfl hpv).elim : _)

theorem action_no_prev (b : Builder) (stackTop : Option StepState) (m : Nat)
    (hprev : b.prevState = none) :
    action b stackTop m =
      Except.ok ({ b with warning := none, state := stackTop }, false, none) := by
  obtain ⟨heap, nodes, links, sc, cs, uda, rn, li, rni, rec, w, awv, en, stt, pv⟩ := b
  simp only [Builder.mk.injEq] at hprev ⊢
  subst hprev
  cases stackTop <;> rfl

theorem action_none (b : Builder) (m : Nat) :
    action b none m =
      Except.ok ({ b with warning := none, state := none }, false, none) := by
  unfold action
  dsimp only

theorem builderInv_actionCore (b : Builder) (st : StepState) (m : Nat)
    (b' : Builder) (d : Bool) (w : Option Warning) (hInv : BuilderInv b)
    (hwfB : wfStepBody b st = true)
    (h : actionCore b st m = Except.ok (b', d, w)) : BuilderInv b' := by
  rw [actionCore] at h
  rcases hA : addEnteringFunction b st with e | ⟨b1, a1⟩
  all_goals rw [hA] at h
  · exact absurd h (by simp)
  · have hI1 : BuilderInv b1 := builderInv_addEnteringFunction b st b1 a1 hInv hA
    cases a1
    · obtain ⟨hb1, hsupf⟩ := add_ok_false b st b1 hA
      rw [hb1] at h
      simp only [Bool.false_eq_true, if_false] at h
      rcases hR : removeExitingFunction b st m with e | ⟨b2, a2⟩
      all_goals rw [hR] at h
      · exact absurd h (by simp)
      · have hdepth : isSupportedReturnToCaller st = true →
            exitGuardPasses b st = true → b.links ≠ [] →
            b.rootNodeIndex + 2 ≤ b.nodes.length := by
          intro hret hguard hlinks
          have hX : (!(isSupportedFunctionCall st) && (isSupportedReturnToCaller st &&
              (exitGuardPasses b st && (!b.links.isEmpty &&
              decide (b.nodes.length < b.rootNodeIndex + 2))))) = false := by
            rw [wfStepBody, Bool.not_eq_true'] at hwfB
            exact hwfB
          have hne : (!b.links.isEmpty) = true := by
            cases hempty : b.links.isEmpty
            · rfl
            · exact absurd (List.isEmpty_iff.mp hempty) hlinks
          rw [hsupf, hret, hguard, hne] at hX
          simp only [Bool.not_false, Bool.true_and] at hX
          have := of_decide_eq_false hX
          omega
        have hI2 : BuilderInv b2 :=
          builderInv_removeExitingFunction b st m b2 a2 hInv hdepth hR
        cases a2
        · have hb2 := remove_ok_false b st m b2 hR
          rw [hb2] at h
          simp only [Bool.false_eq_true, if_false] at h
          rcases hU : updateEnteringFunction b st with e | ⟨b3, a3⟩
          all_goals rw [hU] at h
          · exact absurd h (by simp)
          · rw [Except.ok.injEq, Prod.mk.injEq] at h
            rw [← h.1]
            obtain ⟨u1, u2, u3, _, _, u6, u7⟩ :=
              updFrame_updateEnteringFunction b st b3 a3 hU
            exact builderInv_of_frame b b3 hInv u1 u2 u3 u6 u7
        · simp only [eq_self_iff_true, if_true] at h
          rw [Except.ok.injEq, Prod.mk.injEq] at h
          rw [← h.1]
          exact hI2
    · simp only [eq_self_iff_true, if_true] at h
      rw [Except.ok.injEq, Prod.mk.injEq] at h
      rw [← h.1]
      exact hI1

theorem builderInv_action (b : Builder) (stackTop : Option StepState) (m : Nat)
    (b' : Builder) (d : Bool) (w : Option Warning) (hInv : BuilderInv b)
    (hwf : wfStep b stackTop = true)
    (h : action b stackTop m = Except.ok (b', d, w)) : BuilderInv b' := by
  rcases stackTop with _ | st
  · rw [action_none b m] at h
    rw [Except.ok.injEq, Prod.mk.injEq] at h
    rw [← h.1]
    exact builderInv_congr b _ hInv rfl rfl rfl rfl
  · rcases hpv : b.prevState with _ | pv
    · rw [action_no_prev b _ m hpv] at h
      rw [Except.ok.injEq, Prod.mk.injEq] at h
      rw [← h.1]
      exact builderInv_congr b _ hInv rfl rfl rfl rfl
    · rw [action_some b st pv m hpv] at h
      have hI0 : BuilderInv { b with warning := none, state := some st } :=
        builderInv_congr b _ hInv rfl rfl rfl rfl
      have hwfb : wfStepBody b st = true := by
        rw [← wfStep_some b st pv hpv]
        exact hwf
      have hwfB : wfStepBody { b with warning := none, state := some st } st = true :=
        hwfb
      exact builderInv_actionCore _ st m b' d w hI0 hwfB h

theorem builderInv_setPrevState (b : Builder) (h : BuilderInv b) :
    BuilderInv (setPrevState b) := by
  rw [setPrevState]
  split
  · exact builderInv_congr b _ h rfl rfl rfl rfl
  · exact h

theorem builderInv_step (b : Builder) (stackTop : Option StepState) (m : Nat)
    (b' : Builder) (d : Bool) (w : Option Warning) (hInv : BuilderInv b)
    (hwf : wfStep b stackTop = true)
    (h : step b stackTop m = Except.ok (b', d, w)) : BuilderInv b' := by
  rw [step] at h
  rcases hAct : action b stackTop m with e | ⟨b1, d1, w1⟩
  all_goals rw [hAct] at h
  · exact absurd h (by simp)
  · rw [Except.ok.injEq, Prod.mk.injEq] at h
    rw [← h.1]
    exact builderInv_setPrevState _
      (builderInv_action b stackTop m b1 d1 w1 hInv hwf hAct)

theorem builderInv_runTrace :
    ∀ (trace : List (Option StepState × Nat)) (b b' : Builder),
      BuilderInv b → wfTrace b trace = true →
      runTrace b trace = Except.ok b' → BuilderInv b'
  | [], b, b', hInv, _, hrun => by
    rw [runTrace] at hrun
    cases Except.ok.inj hrun
    exact hInv
  | (stackTop, m) :: rest, b, b', hInv, hwf, hrun => by
    rw [wfTrace, Bool.and_eq_true] at hwf
    rw [runTrace] at hrun
    obtain ⟨hwf1, hwf2⟩ := hwf
    rcases hS : step b stackTop m with e | ⟨b1, d1, w1⟩
    all_goals rw [hS] at hrun hwf2
    · exact absurd hrun (by simp)
    · dsimp only at hwf2
      exact builderInv_runTrace rest b1 b'
        (builderInv_step b stackTop m b1 d1 w1 hInv hwf1 hS) hwf2 hrun

theorem builderInv_initial : BuilderInv initialBuilder :=
  ⟨fun _ => ⟨rfl, rfl, rfl⟩,
   fun h => absurd rfl h,
   fun i hi => absurd hi (by simp [initialBuilder, VisibleFunctionUpdater]),
   fun h => absurd rfl h⟩

/-- Builder reached by the `c1Trace` run (root entered, `a` entered and
exited normally). -/
def c9FinalB : Builder :=
  okBuilder (runTrace initialBuilder c1Trace)

/-- C9: across any well-formed sequence of steps, exactly one node is ever
given `type = root` — the first node created (heap index 0, the heap listing
every node ever created in creation order) — and that node is never removed
from the node collection by eviction or any other operation: it is still a
member of the node list (and `rootNode` still references it) whenever any
node exists. -/
theorem C9_root_unique_never_evicted (trace : List (Option StepState × Nat))
    (b' : Builder)
    (hwf : wfTrace initialBuilder trace = true)
    (hrun : runTrace initialBuilder trace = Except.ok b') :
    (∀ i, i < b'.heap.length → ((getInfo b'.heap i).type = "root" ↔ i = 0)) ∧
    (b'.heap ≠ [] → b'.rootNode = some 0 ∧ 0 ∈ b'.nodes) := by
  have hInv := builderInv_runTrace trace initialBuilder b' builderInv_initial hwf hrun
  constructor
  · intro i hi
    have ht := hInv.types i hi
    by_cases h0 : i = 0
    · subst h0
      simp only [if_pos rfl] at ht
      simp [ht]
    · rw [ht, if_neg h0]
      simp [h0]
  · intro hne
    have hlen : b'.heap.length ≠ 0 := by
      simpa [List.length_eq_zero] using hne
    refine ⟨hInv.root_id hlen, ?_⟩
    obtain ⟨R, L, hdec, _⟩ := hInv.decomp hlen
    rw [hdec]
    exact List.mem_append_right R (List.mem_cons_self 0 L)

/-- C9 witness: on the concrete well-formed trace that enters the root,
enters `a` and exits it normally, the final state has exactly one root-typed
node (heap index 0) and it is still in the node list. -/
theorem C9_root_unique_never_evicted_witness :
    (∀ i, i < c9FinalB.heap.length →
      ((getInfo c9FinalB.heap i).type = "root" ↔ i = 0)) ∧
    (c9FinalB.heap ≠ [] → c9FinalB.rootNode = some 0 ∧ 0 ∈ c9FinalB.nodes) :=
  C9_root_unique_never_evicted c1Trace c9FinalB rfl rfl
